import Mathlib

/-!
Verification of the Speedrun end-to-end test harness (`speedrun-hq/speedtest`).

This file gives a shallow embedding, in Lean, of the intent lifecycle
coordinator of the repository:

* the status-polling state machine `SpeedrunApiClient.pollIntentStatus`
  (`src/speedrun/api.ts`),
* the per-chain `LockManager` and the submission phase of
  `executeSingleTransfer` (`src/commands/transfers.ts`),
* the allowance manager `EvmClient.approveToken` and the intent submitter
  `TransferService.initiateTransfer` (`src/evm/client.ts`,
  `src/evm/transfer.ts`),
* the batch-result aggregation of `executeTransfers`
  (`src/commands/transfers.ts`).

Each definition is translated directly from the TypeScript source; external
effects (the REST API, the EVM JSON-RPC provider, wall-clock time, the
cooperative scheduler) are modelled as explicit oracles or small-step
transition systems.  Theorems about the embedding follow the definitions.
-/

namespace Speedtest

/-! ## Status-polling model (`src/speedrun/api.ts`)

`pollIntentStatus` repeatedly calls `getIntent` (a `GET /intents/{id}` that
returns a record, `null` on HTTP 404, or throws on any other error), tracks
status transitions with local timestamps, and assembles an
`IntentStatusResult`.

The remote API is modelled as an oracle `responses : Nat → ApiResponse`
giving the outcome of the k-th `getIntent` call (0-based), and the local
wall clock as `clock : Nat → Nat`: `clock 0` is `startTime` (taken before
the loop) and `clock (k+1)` is the value `new Date()` would produce while
processing the k-th response.  Millisecond differences of JS `Date.getTime`
values are modelled as `Int`. -/

/-- The `status` field of an intent record
(`src/speedrun/api.ts`, `IntentResponse.status`). -/
inductive IntentStatus where
  | pending
  | fulfilled
  | settled
  | cancelled
  | failed
deriving DecidableEq, Repr, Inhabited

/-- An intent record returned by the Speedrun API
(`src/speedrun/api.ts`, `IntentResponse`); fields not read by the polling
logic (amounts, chains, recipient) are omitted, while `created_at` and
`updated_at` are kept to state that the poller never uses them. -/
structure IntentResponse where
  id : String
  status : IntentStatus
  created_at : Nat
  updated_at : Nat
  fulfillment_tx : Option String := none
  settlement_tx : Option String := none
deriving DecidableEq, Repr

/-- Outcome of one `getIntent` call: a record, `null` after an HTTP 404, or
a non-404 axios error (which `getIntent` re-throws). -/
inductive ApiResponse where
  | found (intent : IntentResponse)
  | notFound
  | apiError
deriving DecidableEq, Repr

/-- Errors that can escape `pollIntentStatus`: the distinct
`Intent not found in API after 5 attempts` error, or a propagated generic
API error. -/
inductive PollError where
  | notIndexed
  | apiFailure
deriving DecidableEq, Repr

/-- The result record of `pollIntentStatus`
(`src/speedrun/api.ts`, `IntentStatusResult`).  Absent optional fields are
`none`; durations are `Int` milliseconds. -/
structure IntentStatusResult where
  intent : Option IntentResponse
  fulfilledAt : Option Nat := none
  settledAt : Option Nat := none
  timeToFulfill : Option Int := none
  timeToSettle : Option Int := none
  totalTime : Option Int := none
deriving DecidableEq, Repr

/-- The constant `MAX_NOT_FOUND_ATTEMPTS` (`src/speedrun/api.ts` line 81). -/
def MAX_NOT_FOUND_ATTEMPTS : Nat := 5

/-- The mutable locals of the `while` loop of `pollIntentStatus`
(`src/speedrun/api.ts` lines 72-82). -/
structure PollState where
  attempts : Nat
  intent : Option IntentResponse
  previousStatus : Option IntentStatus
  intentFound : Bool
  fulfilledAt : Option Nat
  settledAt : Option Nat
  notFoundAttempts : Nat
deriving DecidableEq, Repr

/-- Loop locals as initialized before the `while` loop. -/
def initialPollState : PollState :=
  { attempts := 0
    intent := none
    previousStatus := none
    intentFound := false
    fulfilledAt := none
    settledAt := none
    notFoundAttempts := 0 }

/-- The state update of the 404 branch of the loop body
(`src/speedrun/api.ts` lines 88-94), after `intent = await getIntent(...)`
(which set `intent` to `null`) and `attempts++`. -/
def notFoundUpdate (st : PollState) : PollState :=
  { st with
    attempts := st.attempts + 1
    intent := none
    notFoundAttempts := st.notFoundAttempts + 1 }

/-- The body of the found-intent branch (`src/speedrun/api.ts` lines
95-116) applied to the state after `intent = await this.getIntent(...)`
and `attempts++`: sets `intent` and `intentFound`, and on a status change
records `fulfilledAt` / `settledAt` with the current local time
(`clock st.attempts` after the increment, that is `clock (k+1)` for the
k-th response). -/
def processFoundResponse (clock : Nat → Nat) (r : IntentResponse)
    (st : PollState) : PollState :=
  let st1 : PollState :=
    { st with attempts := st.attempts + 1, intent := some r, intentFound := true }
  if st1.previousStatus ≠ some r.status ∧ st1.intentFound then
    { st1 with
      previousStatus := some r.status
      fulfilledAt :=
        if r.status = IntentStatus.fulfilled then some (clock st1.attempts)
        else st1.fulfilledAt
      settledAt :=
        if r.status = IntentStatus.settled then some (clock st1.attempts)
        else st1.settledAt }
  else st1

/-- The `while (attempts < maxAttempts)` loop of `pollIntentStatus`
(`src/speedrun/api.ts` lines 84-130), as structural recursion on the
remaining number of attempts (`maxAttempts - attempts`).  A 404 increments
`notFoundAttempts` and throws `notIndexed` once it reaches
`MAX_NOT_FOUND_ATTEMPTS`; a non-404 error from `getIntent` propagates; a
found record is processed by `processFoundResponse` and the loop breaks
when the status is a target status other than `fulfilled`. -/
def pollLoop (responses : Nat → ApiResponse) (clock : Nat → Nat)
    (targets : List IntentStatus) :
    Nat → PollState → Except PollError PollState
  | 0, st => Except.ok st
  | rem + 1, st =>
    match responses st.attempts with
    | ApiResponse.apiError => Except.error PollError.apiFailure
    | ApiResponse.notFound =>
      let st' : PollState := notFoundUpdate st
      if MAX_NOT_FOUND_ATTEMPTS ≤ st'.notFoundAttempts then
        Except.error PollError.notIndexed
      else pollLoop responses clock targets rem st'
    | ApiResponse.found r =>
      let st2 := processFoundResponse clock r st
      if r.status ∈ targets ∧ r.status ≠ IntentStatus.fulfilled then
        Except.ok st2
      else pollLoop responses clock targets rem st2

/-- Assembly of the returned `IntentStatusResult` from the final loop state
(`src/speedrun/api.ts` lines 132-146): `fulfilledAt`/`timeToFulfill` are
filled when `fulfilledAt` was recorded, and `settledAt`/`timeToSettle`/
`totalTime` only when both `settledAt` and `fulfilledAt` were recorded. -/
def buildStatusResult (clock : Nat → Nat) (st : PollState) :
    IntentStatusResult :=
  let result0 : IntentStatusResult := { intent := st.intent }
  let result1 :=
    match st.fulfilledAt with
    | some f =>
      { result0 with
        fulfilledAt := some f
        timeToFulfill := some ((f : Int) - (clock 0 : Int)) }
    | none => result0
  match st.settledAt, st.fulfilledAt with
  | some s, some f =>
    { result1 with
      settledAt := some s
      timeToSettle := some ((s : Int) - (f : Int))
      totalTime := some ((s : Int) - (clock 0 : Int)) }
  | _, _ => result1

/-- The method `SpeedrunApiClient.pollIntentStatus` (`src/speedrun/api.ts` lines
62-147): run the polling loop from the initial state and assemble the
result; errors thrown inside the loop propagate. -/
def pollIntentStatus (responses : Nat → ApiResponse) (clock : Nat → Nat)
    (targets : List IntentStatus) (maxAttempts : Nat) :
    Except PollError IntentStatusResult :=
  match pollLoop responses clock targets maxAttempts initialPollState with
  | Except.error e => Except.error e
  | Except.ok st => Except.ok (buildStatusResult clock st)

/-- Response oracle in which every `getIntent` call succeeds and returns a
record; used to state claims about sessions that never hit a 404 or an API
error. -/
def foundResponses (resp : Nat → IntentResponse) : Nat → ApiResponse :=
  fun k => ApiResponse.found (resp k)

/-- A sample intent record with a given status (timestamps and hashes
arbitrary), used for concrete polling scenarios. -/
def sampleIntent (s : IntentStatus) : IntentResponse :=
  { id := "0xintent", status := s, created_at := 11, updated_at := 22 }

/-- Number of 404 responses among the responses with indices
`a, a+1, ..., a+n-1`. -/
def countNotFound (responses : Nat → ApiResponse) : Nat → Nat → Nat
  | _, 0 => 0
  | a, n + 1 =>
    (if responses a = ApiResponse.notFound then 1 else 0) +
      countNotFound responses (a + 1) n

/-- Iterated application of the loop body on successive found responses:
`b` is reached from `a` by processing responses
`resp a.attempts, resp (a.attempts + 1), ...`. -/
def PollSteps (resp : Nat → IntentResponse) (clock : Nat → Nat)
    (a b : PollState) : Prop :=
  Relation.ReflTransGen
    (fun s s' => s' = processFoundResponse clock (resp s.attempts) s) a b

/-- The break condition of the loop
(`targetStatuses.includes(intent.status) && intent.status !== "fulfilled"`,
`src/speedrun/api.ts` lines 120-125). -/
abbrev BreaksAt (resp : Nat → IntentResponse) (targets : List IntentStatus)
    (k : Nat) : Prop :=
  (resp k).status ∈ targets ∧ (resp k).status ≠ IntentStatus.fulfilled

/-- Invariant of the polling loop run from its initial state on found-only
responses: (1) whenever `previousStatus` is `fulfilled` or a `fulfilledAt`
timestamp exists, that timestamp is `clock (i+1)` for some processed
response `i` with status `fulfilled`; (2) `previousStatus` is `none` or the
status of some processed response; (3) every processed response with status
`fulfilled` has left a `fulfilledAt` timestamp. -/
def PollInvariant (resp : Nat → IntentResponse) (clock : Nat → Nat)
    (st : PollState) : Prop :=
  ((st.previousStatus = some IntentStatus.fulfilled ∨ st.fulfilledAt.isSome) →
    ∃ i, i < st.attempts ∧ (resp i).status = IntentStatus.fulfilled ∧
      st.fulfilledAt = some (clock (i + 1))) ∧
  (st.previousStatus = none ∨
    ∃ i, i < st.attempts ∧ st.previousStatus = some ((resp i).status)) ∧
  (∀ i, i < st.attempts → (resp i).status = IntentStatus.fulfilled →
    st.fulfilledAt.isSome)

/-- A simple strictly increasing local clock (one tick per second). -/
def tickClock : Nat → Nat := fun k => 1000 * k

/-- Response oracle derived from a finite script of statuses (indices past
the script repeat a `pending` record). -/
def statusListResponses (l : List IntentStatus) : Nat → IntentResponse :=
  fun k => sampleIntent (l.getD k IntentStatus.pending)

/-- A response script with four 404s, then a successful lookup, then a
fifth 404 (indices past the script stay 404). -/
def c3NotFoundScript : Nat → ApiResponse := fun k =>
  ([ApiResponse.notFound, ApiResponse.notFound, ApiResponse.notFound,
    ApiResponse.notFound, ApiResponse.found (sampleIntent IntentStatus.pending),
    ApiResponse.notFound]).getD k ApiResponse.notFound

/-- Equality of intent records up to the remote bookkeeping timestamps
`created_at` / `updated_at`. -/
def sameObservable (r r' : IntentResponse) : Prop :=
  r.id = r'.id ∧ r.status = r'.status ∧
  r.fulfillment_tx = r'.fulfillment_tx ∧ r.settlement_tx = r'.settlement_tx

/-- Relation `sameObservable` lifted to `getIntent` outcomes. -/
def sameObservableApi : ApiResponse → ApiResponse → Prop
  | ApiResponse.found r, ApiResponse.found r' => sameObservable r r'
  | ApiResponse.notFound, ApiResponse.notFound => True
  | ApiResponse.apiError, ApiResponse.apiError => True
  | _, _ => False

/-- Relation `sameObservable` lifted to the nullable `intent` local. -/
def sameObservableOpt : Option IntentResponse → Option IntentResponse → Prop
  | some r, some r' => sameObservable r r'
  | none, none => True
  | _, _ => False

/-- Loop states that agree on everything except the remote timestamps
buried inside the stored `intent` record. -/
def sameObservableState (st st' : PollState) : Prop :=
  st.attempts = st'.attempts ∧ sameObservableOpt st.intent st'.intent ∧
  st.previousStatus = st'.previousStatus ∧ st.intentFound = st'.intentFound ∧
  st.fulfilledAt = st'.fulfilledAt ∧ st.settledAt = st'.settledAt ∧
  st.notFoundAttempts = st'.notFoundAttempts

/-- Loop outcomes that agree up to the remote timestamps. -/
def sameObservableExcept :
    Except PollError PollState → Except PollError PollState → Prop
  | Except.ok st, Except.ok st' => sameObservableState st st'
  | Except.error e, Except.error e' => e = e'
  | _, _ => False

/-- Poll results whose timing metrics (and error outcomes) agree. -/
def timingAgrees :
    Except PollError IntentStatusResult → Except PollError IntentStatusResult →
      Prop
  | Except.ok r, Except.ok r' =>
    r.fulfilledAt = r'.fulfilledAt ∧ r.settledAt = r'.settledAt ∧
    r.timeToFulfill = r'.timeToFulfill ∧ r.timeToSettle = r'.timeToSettle ∧
    r.totalTime = r'.totalTime
  | Except.error e, Except.error e' => e = e'
  | _, _ => False

/-- Response oracle observably equal to the single-`settled` script but
with different remote `created_at` / `updated_at` timestamps. -/
def c5AltResponses : Nat → ApiResponse := fun k =>
  ApiResponse.found
    { id := "0xintent"
      status := [IntentStatus.settled].getD k IntentStatus.pending
      created_at := 999
      updated_at := 777 }

/-- The final loop state of the single-`settled` session: `settledAt` was
recorded internally but `fulfilledAt` never was. -/
def c5SettledOnlyState : PollState :=
  { attempts := 1
    intent := some (sampleIntent IntentStatus.settled)
    previousStatus := some IntentStatus.settled
    intentFound := true
    fulfilledAt := none
    settledAt := some 1000
    notFoundAttempts := 0 }

/-! ## Chain-lock model (`src/commands/transfers.ts` lines 44-73)

`LockManager` keeps a `Map` from `"lock_" + chainId` to a pair of a pending
promise and its `resolve` function.  `acquireLock` installs a fresh entry
and returns immediately when the key is absent, and otherwise awaits the
stored promise; `releaseLock` deletes the entry and resolves its promise,
which wakes every task awaiting it.

Promises are identified by allocation order (`nextPromiseId`); a resolved
promise id stays resolved.  Tasks executing `executeSingleTransfer` are run
by a cooperative scheduler: each scheduler step runs one task's next
synchronous segment (the segments between `await` points of the source). -/
/-- The process-wide `LockManager` state: the `locks` map (key to the id of
the stored promise), the next fresh promise id, and the set of promise ids
that have been resolved. -/
structure LockManager where
  locks : List (String × Nat)
  nextPromiseId : Nat
  resolvedPromises : List Nat
deriving DecidableEq, Repr

/-- A `LockManager` as freshly constructed (`new LockManager()`). -/
def emptyLockManager : LockManager :=
  { locks := [], nextPromiseId := 0, resolvedPromises := [] }

/-- The `lockKey` computed by both `acquireLock` and `releaseLock`. -/
def lockKey (chainId : String) : String := "lock_" ++ chainId

/-- Outcome of the synchronous part of `acquireLock`
(`src/commands/transfers.ts` lines 48-63): either the caller installed a
fresh lock entry and proceeds (`acquired`), or an entry exists and the
caller suspends awaiting its promise (`waitOn`). -/
inductive AcquireOutcome where
  | acquired (m : LockManager)
  | waitOn (pid : Nat)
deriving DecidableEq, Repr

/-- The method `LockManager.acquireLock`: if no entry exists for the chain's key,
create one (a fresh promise and its resolver) and return; otherwise await
the stored promise.  Note that a woken waiter returns from `acquireLock`
WITHOUT installing a new entry. -/
def acquireLock (m : LockManager) (chainId : String) : AcquireOutcome :=
  match m.locks.lookup (lockKey chainId) with
  | none =>
    AcquireOutcome.acquired
      { m with
        locks := (lockKey chainId, m.nextPromiseId) :: m.locks
        nextPromiseId := m.nextPromiseId + 1 }
  | some pid => AcquireOutcome.waitOn pid

/-- The method `LockManager.releaseLock` (`src/commands/transfers.ts` lines 65-72):
if an entry exists for the key, delete it from the map and resolve its
promise (waking every task awaiting it); otherwise do nothing. -/
def releaseLock (m : LockManager) (chainId : String) : LockManager :=
  match m.locks.lookup (lockKey chainId) with
  | some pid =>
    { m with
      locks := m.locks.eraseP (fun e => e.1 == lockKey chainId)
      resolvedPromises := pid :: m.resolvedPromises }
  | none => m

/-- Where a transfer task stands relative to its submission phase
(`executeSingleTransfer`, `src/commands/transfers.ts` lines 135-146):
before `acquireLock`, suspended awaiting a lock promise, inside the
critical section (between `acquireLock` returning and `releaseLock`), or
past `releaseLock`. -/
inductive TaskPhase where
  | ready
  | waiting (pid : Nat)
  | submitting
  | finished
deriving DecidableEq, Repr

/-- One transfer task of a batch: its source-chain id and phase. -/
structure BatchTask where
  chain : String
  phase : TaskPhase
deriving DecidableEq, Repr

/-- A batch run: the shared `LockManager` and the tasks spawned by
`transfers.map((config, index) => executeSingleTransfer(...))`. -/
structure BatchState where
  mgr : LockManager
  tasks : List BatchTask
deriving DecidableEq, Repr

/-- One cooperative scheduler step of task `tid`: run its next synchronous
segment.  `ready` runs `acquireLock` (entering the submission phase if it
installed the entry, suspending otherwise); `waiting pid` resumes — and
enters the submission phase — once `pid` has been resolved; `submitting`
runs `releaseLock` (the `finally` block) and finishes.  `none` means the
task cannot make a step (suspended or finished). -/
def stepTask (s : BatchState) (tid : Nat) : Option BatchState :=
  match s.tasks.get? tid with
  | none => none
  | some t =>
    match t.phase with
    | TaskPhase.ready =>
      match acquireLock s.mgr t.chain with
      | AcquireOutcome.acquired m' =>
        some { mgr := m',
               tasks := s.tasks.set tid { t with phase := TaskPhase.submitting } }
      | AcquireOutcome.waitOn pid =>
        some { s with
               tasks := s.tasks.set tid { t with phase := TaskPhase.waiting pid } }
    | TaskPhase.waiting pid =>
      if pid ∈ s.mgr.resolvedPromises then
        some { s with
               tasks := s.tasks.set tid { t with phase := TaskPhase.submitting } }
      else none
    | TaskPhase.submitting =>
      some { mgr := releaseLock s.mgr t.chain,
             tasks := s.tasks.set tid { t with phase := TaskPhase.finished } }
    | TaskPhase.finished => none

/-- Run a schedule (a sequence of task ids) from a batch state. -/
def runSchedule : BatchState → List Nat → Option BatchState
  | s, [] => some s
  | s, tid :: rest =>
    match stepTask s tid with
    | some s' => runSchedule s' rest
    | none => none

/-- Three concurrent transfers sharing source chain id `"8453"`, as spawned
before any of them runs (`executeTransfers`, `src/commands/transfers.ts`
lines 212-219). -/
def threeSameChainBatch : BatchState :=
  { mgr := emptyLockManager
    tasks := [ { chain := "8453", phase := TaskPhase.ready }
             , { chain := "8453", phase := TaskPhase.ready }
             , { chain := "8453", phase := TaskPhase.ready } ] }

/-- The submission phase of `executeSingleTransfer`
(`src/commands/transfers.ts` lines 135-146) for a task that finds the
chain free: `await lockManager.acquireLock(chainId)`, then
`try { await initiateTransfer } finally { await releaseLock(chainId) }`.
`submission` is the oracle outcome of `sourceClient.initiateTransfer`
(either `(intentId, txHash)` or a thrown error); the `finally` block runs
`releaseLock` on both outcomes and the result or error then propagates
unchanged.  A caller that must wait returns `none` (it suspends; the
scheduler model `stepTask` covers that case). -/
def executeSubmissionPhase (m : LockManager) (chainId : String)
    (submission : Except String (String × String)) :
    Option (LockManager × Except String (String × String)) :=
  match acquireLock m chainId with
  | AcquireOutcome.waitOn _ => none
  | AcquireOutcome.acquired m' => some (releaseLock m' chainId, submission)

/-! ## Allowance manager and intent submitter
(`src/evm/client.ts` `EvmClient.approveToken`,
`src/evm/transfer.ts` `TransferService.initiateTransfer`)

The EVM chain is modelled as an oracle `EvmWorld`: the current ERC20
allowances, the hash a submitted transaction gets, the receipt a confirmed
transaction gets, and the value of the read-only `getNextIntentId` view.
Each operation returns the ordered trace of its chain interactions,
mirroring the `await` sequence of the source. -/
/-- An `ethers.TransactionReceipt` as observed by this code: the fields it
ever reads, each `Option` because the short-circuit path of `approveToken`
returns `{} as ethers.TransactionReceipt`, on which every field access
yields `undefined`. -/
structure TransactionReceipt where
  hash : Option String
  blockNumber : Option Nat
  logs : Option (List String)
deriving DecidableEq, Repr

/-- The `{} as ethers.TransactionReceipt` dummy
(`src/evm/client.ts` line 87). -/
def dummyReceipt : TransactionReceipt :=
  { hash := none, blockNumber := none, logs := none }

/-- Parameters of `TransferService.initiateTransfer`
(`src/evm/transfer.ts`, `InitiateTransferParams`).  Amounts are `Nat`
(JS `bigint` is unbounded); addresses and hashes are strings. -/
structure InitiateTransferParams where
  asset : String
  amount : Nat
  targetChain : Nat
  receiver : String
  tip : Nat
  salt : Nat
deriving DecidableEq, Repr

/-- One chain interaction, in program order.  `receiver` is carried as the
input address; the fixed-width 20-byte encoding
(`ethers.getBytes(ethers.zeroPadValue(receiver, 20))`) is kept abstract as
it plays no role in the claims. -/
inductive EvmEvent where
  | allowanceRead (token owner spender : String) (value : Nat)
  | approveSubmitted (token spender : String) (amount : Nat) (txHash : String)
  | txWaited (txHash : String)
  | nextIntentIdRead (salt : Nat) (intentId : String)
  | transferSubmitted (asset : String) (amount targetChain : Nat)
      (receiver : String) (tip salt : Nat) (txHash : String)
deriving DecidableEq, Repr

/-- The EVM chain oracle: current allowances (token, owner, spender), the
hash assigned to a submitted approval, the receipt data a confirmed
transaction hash resolves to, the `getNextIntentId(salt)` view, and the
hash assigned to a submitted `initiateTransfer` transaction. -/
structure EvmWorld where
  allowanceOf : String → String → String → Nat
  approveTxHash : String → String → Nat → String
  confirmBlock : String → Nat
  confirmLogs : String → List String
  nextIntentId : Nat → String
  transferTxHash : InitiateTransferParams → String

/-- The receipt `tx.wait()` resolves to for hash `h`: a genuine receipt
with all fields present. -/
def minedReceipt (w : EvmWorld) (h : String) : TransactionReceipt :=
  { hash := some h
    blockNumber := some (w.confirmBlock h)
    logs := some (w.confirmLogs h) }

/-- The method `EvmClient.approveToken` (`src/evm/client.ts` lines 61-96): read the
current allowance of the wallet for the spender (the given one, defaulting
to the chain's intent contract); if it already covers `amount`, return the
`{}` dummy receipt without any transaction; otherwise submit
`approve(spenderAddress, amount)` — exactly the required amount — and
`await tx.wait()` before returning the mined receipt.  Returns the ordered
trace of chain interactions alongside the receipt. -/
def approveToken (w : EvmWorld) (walletAddress intentAddress : String)
    (tokenAddress : String) (amount : Nat) (spender : Option String) :
    List EvmEvent × TransactionReceipt :=
  let spenderAddress := spender.getD intentAddress
  let currentAllowance := w.allowanceOf tokenAddress walletAddress spenderAddress
  if amount ≤ currentAllowance then
    ([EvmEvent.allowanceRead tokenAddress walletAddress spenderAddress
        currentAllowance],
     dummyReceipt)
  else
    let h := w.approveTxHash tokenAddress spenderAddress amount
    ([EvmEvent.allowanceRead tokenAddress walletAddress spenderAddress
        currentAllowance,
      EvmEvent.approveSubmitted tokenAddress spenderAddress amount h,
      EvmEvent.txWaited h],
     minedReceipt w h)

/-- The method `TransferService.initiateTransfer` (`src/evm/transfer.ts` lines 38-79)
with the `approveTokenCallback` that `EvmClient.initiateTransfer` passes
(`(tokenAddress, amount) => this.approveToken(tokenAddress, amount)`, so
the spender defaults to the intent contract): first ensure allowance for
`amount + tip` on the request's asset, then read
`getNextIntentId(params.salt)`, then submit the `initiateTransfer`
transaction and `await tx.wait()`, and return the pre-read intent id with
the submitted transaction's hash. -/
def initiateTransfer (w : EvmWorld) (walletAddress intentContractAddress : String)
    (p : InitiateTransferParams) : List EvmEvent × String × String :=
  let approval := approveToken w walletAddress intentContractAddress p.asset
    (p.amount + p.tip) none
  let intentId := w.nextIntentId p.salt
  let h := w.transferTxHash p
  (approval.1 ++
    [EvmEvent.nextIntentIdRead p.salt intentId,
     EvmEvent.transferSubmitted p.asset p.amount p.targetChain p.receiver
       p.tip p.salt h,
     EvmEvent.txWaited h],
   intentId, h)

/-- Whether a chain interaction is the submission of an approval
transaction. -/
def isApprovalSubmission : EvmEvent → Bool
  | EvmEvent.approveSubmitted _ _ _ _ => true
  | _ => false

/-- An example chain oracle with generous allowances. -/
def sampleRichWorld : EvmWorld :=
  { allowanceOf := fun _ _ _ => 100
    approveTxHash := fun _ _ _ => "0xapprovetx"
    confirmBlock := fun _ => 7
    confirmLogs := fun _ => ["log0"]
    nextIntentId := fun salt => "0xintent" ++ toString salt
    transferTxHash := fun _ => "0xtransfertx" }

/-- An example chain oracle with no allowance granted yet. -/
def sampleBareWorld : EvmWorld :=
  { sampleRichWorld with allowanceOf := fun _ _ _ => 0 }

/-- An example transfer request. -/
def sampleTransferParams : InitiateTransferParams :=
  { asset := "0xtoken"
    amount := 40
    targetChain := 42161
    receiver := "0xme"
    tip := 10
    salt := 3 }

/-! ## Batch-result aggregation (`src/commands/transfers.ts` lines 214-254)

`executeTransfers` launches every configured transfer concurrently with
`Promise.allSettled(transfers.map((config, index) =>
executeSingleTransfer(config, index, lockManager)))`.  JS semantics of
`allSettled` are part of the model: it waits for all outcomes and returns
them indexed by input position regardless of completion order, each either
`fulfilled` with the task's value or `rejected` with its reason.
`executeSingleTransfer` catches its own errors and returns a `failed`
result stamped with its own `index` argument, which is the map index. -/
/-- The `status` field of a `TransferResult`
(`src/commands/transfers.ts` line 36). -/
inductive TransferStatus where
  | settled
  | fulfilled
  | pending
  | failed
deriving DecidableEq, Repr

/-- A transfer configuration read from the YAML batch file
(`src/commands/transfers.ts`, `TransferConfig`). -/
structure TransferConfig where
  src : String
  dst : String
  asset : String
  amount : String
  fee : String
deriving DecidableEq, Repr

/-- A per-transfer outcome record
(`src/commands/transfers.ts`, `TransferResult`). -/
structure TransferResult where
  index : Nat
  sourceChain : String
  destChain : String
  asset : String
  amount : String
  status : TransferStatus
  message : String
  fulfillmentTx : Option String := none
  settlementTx : Option String := none
  error : Option String := none
deriving DecidableEq, Repr

/-- One entry of the `Promise.allSettled` result array: the promise
fulfilled with a `TransferResult`, or rejected with a reason. -/
inductive SettledOutcome where
  | fulfilled (value : TransferResult)
  | rejected (reason : String)
deriving DecidableEq, Repr

/-- The error result built for a rejected promise
(`src/commands/transfers.ts` lines 236-247): fields fall back to
`"unknown"` / `"UNKNOWN"` / `"0"` when `transfers[index]` is absent. -/
def rejectedResult (transfers : List TransferConfig) (index : Nat)
    (reason : String) : TransferResult :=
  { index := index
    sourceChain := ((transfers.get? index).map TransferConfig.src).getD "unknown"
    destChain := ((transfers.get? index).map TransferConfig.dst).getD "unknown"
    asset := ((transfers.get? index).map
      (fun c => c.asset.toUpper)).getD "UNKNOWN"
    amount := ((transfers.get? index).map TransferConfig.amount).getD "0"
    status := TransferStatus.failed
    message := "Transfer failed: " ++ reason
    error := some reason }

/-- The result pushed for the outcome at position `i`
(`results.forEach((result, index) => ...)`,
`src/commands/transfers.ts` lines 226-251): a fulfilled promise
contributes its value, a rejected one the synthesized error result. -/
def resultAt (transfers : List TransferConfig) (i : Nat) :
    SettledOutcome → TransferResult
  | SettledOutcome.fulfilled r => r
  | SettledOutcome.rejected reason => rejectedResult transfers i reason

/-- The `forEach` push loop over the `allSettled` array, carrying the
running index. -/
def collectResults (transfers : List TransferConfig) :
    Nat → List SettledOutcome → List TransferResult
  | _, [] => []
  | i, o :: rest =>
    resultAt transfers i o :: collectResults transfers (i + 1) rest

/-- Insertion step of the ascending stable sort modelling
`transferResults.sort((a, b) => a.index - b.index)`
(`src/commands/transfers.ts` line 254). -/
def insertByIndex (r : TransferResult) :
    List TransferResult → List TransferResult
  | [] => [r]
  | x :: xs =>
    if r.index < x.index then r :: x :: xs else x :: insertByIndex r xs

/-- The sort by original request index. -/
def sortByIndex : List TransferResult → List TransferResult
  | [] => []
  | x :: xs => insertByIndex x (sortByIndex xs)

/-- Result aggregation of `executeTransfers`: collect one result per
`allSettled` outcome, then sort by index. -/
def executeTransfersResults (transfers : List TransferConfig)
    (outcomes : List SettledOutcome) : List TransferResult :=
  sortByIndex (collectResults transfers 0 outcomes)

/-- Three sample transfer configurations. -/
def sampleTransfers : List TransferConfig :=
  [ { src := "base", dst := "arbitrum", asset := "usdc",
      amount := "1", fee := "0.1" }
  , { src := "arbitrum", dst := "base", asset := "usdc",
      amount := "2", fee := "0.1" }
  , { src := "base", dst := "arbitrum", asset := "usdt",
      amount := "3", fee := "0.1" } ]

/-- A sample successful transfer result at a given index. -/
def sampleSettledResult (i : Nat) : TransferResult :=
  { index := i
    sourceChain := "Base"
    destChain := "Arbitrum"
    asset := "USDC"
    amount := "1"
    status := TransferStatus.settled
    message := "Transfer settled" }

/-- Sample `allSettled` outcomes: request 1 rejected, its siblings
settled. -/
def sampleOutcomes : List SettledOutcome :=
  [ SettledOutcome.fulfilled (sampleSettledResult 0)
  , SettledOutcome.rejected "initiateTransfer reverted"
  , SettledOutcome.fulfilled (sampleSettledResult 2) ]

/-! ## Lemmas about the polling loop -/
/-- Lemma: `processFoundResponse` performs the `attempts++` of the loop body. -/
theorem processFoundResponse_attempts (clock : Nat → Nat) (r : IntentResponse)
    (st : PollState) :
    (processFoundResponse clock r st).attempts = st.attempts + 1 := by
  unfold processFoundResponse
  dsimp only
  split <;> rfl

/-- Lemma: `processFoundResponse` does not touch the 404 counter. -/
theorem processFoundResponse_notFoundAttempts (clock : Nat → Nat)
    (r : IntentResponse) (st : PollState) :
    (processFoundResponse clock r st).notFoundAttempts = st.notFoundAttempts := by
  unfold processFoundResponse
  dsimp only
  split <;> rfl

/-- Any predicate preserved by the loop body holds along `PollSteps`. -/
theorem pollSteps_invariant {resp : Nat → IntentResponse} {clock : Nat → Nat}
    (P : PollState → Prop)
    (hstep : ∀ st, P st → P (processFoundResponse clock (resp st.attempts) st))
    {a b : PollState} (h : PollSteps resp clock a b) (ha : P a) : P b := by
  induction h with
  | refl => exact ha
  | tail _ hs ih => exact hs ▸ hstep _ ih

/-- One unfolding of the loop on a found response. -/
theorem pollLoop_found_succ (resp : Nat → IntentResponse) (clock : Nat → Nat)
    (targets : List IntentStatus) (n : Nat) (st : PollState) :
    pollLoop (foundResponses resp) clock targets (n + 1) st =
      if BreaksAt resp targets st.attempts then
        Except.ok (processFoundResponse clock (resp st.attempts) st)
      else
        pollLoop (foundResponses resp) clock targets n
          (processFoundResponse clock (resp st.attempts) st) := rfl

/-- Shape of a run of the loop on found-only responses: the loop never
throws, and either exhausts its attempts having hit no break condition, or
stops at the first response satisfying the break condition, one attempt
after processing it. -/
theorem pollLoop_found_shape (resp : Nat → IntentResponse) (clock : Nat → Nat)
    (targets : List IntentStatus) (fuel : Nat) (st : PollState) :
    ∃ st', pollLoop (foundResponses resp) clock targets fuel st = Except.ok st' ∧
      ((PollSteps resp clock st st' ∧ st'.attempts = st.attempts + fuel ∧
        ∀ k, st.attempts ≤ k → k < st'.attempts → ¬ BreaksAt resp targets k) ∨
       (∃ stj, PollSteps resp clock st stj ∧
         st' = processFoundResponse clock (resp stj.attempts) stj ∧
         st.attempts ≤ stj.attempts ∧ stj.attempts < st.attempts + fuel ∧
         BreaksAt resp targets stj.attempts ∧
         st'.attempts = stj.attempts + 1 ∧
         ∀ k, st.attempts ≤ k → k < stj.attempts → ¬ BreaksAt resp targets k)) := by
  induction fuel generalizing st with
  | zero =>
    exact ⟨st, rfl, Or.inl ⟨Relation.ReflTransGen.refl, rfl, fun k hk hk' => absurd (lt_of_le_of_lt hk hk') (lt_irrefl _)⟩⟩
  | succ n ih =>
    by_cases hb : BreaksAt resp targets st.attempts
    · refine ⟨processFoundResponse clock (resp st.attempts) st, ?_, Or.inr ⟨st, Relation.ReflTransGen.refl, rfl, le_refl _, ?_, hb, processFoundResponse_attempts _ _ _, fun k hk hk' => absurd (lt_of_le_of_lt hk hk') (lt_irrefl _)⟩⟩
      · rw [pollLoop_found_succ, if_pos hb]
      · omega
    · obtain ⟨st', hrun, hcase⟩ := ih (processFoundResponse clock (resp st.attempts) st)
      have hstep : pollLoop (foundResponses resp) clock targets (n + 1) st =
          pollLoop (foundResponses resp) clock targets n
            (processFoundResponse clock (resp st.attempts) st) := by
        rw [pollLoop_found_succ, if_neg hb]
      have hone : PollSteps resp clock st
          (processFoundResponse clock (resp st.attempts) st) :=
        Relation.ReflTransGen.single rfl
      have hatt := processFoundResponse_attempts clock (resp st.attempts) st
      refine ⟨st', by rw [hstep]; exact hrun, ?_⟩
      rcases hcase with ⟨hsteps, hn, hwin⟩ | ⟨stj, hsteps, hst', h1, h2, h3, h4, hwin⟩
      · refine Or.inl ⟨hone.trans hsteps, by omega, fun k hk hk' => ?_⟩
        rcases Nat.eq_or_lt_of_le hk with h | h
        · exact h ▸ hb
        · exact hwin k (by omega) hk'
      · refine Or.inr ⟨stj, hone.trans hsteps, hst', by omega, by omega, h3, h4,
          fun k hk hk' => ?_⟩
        rcases Nat.eq_or_lt_of_le hk with h | h
        · exact h ▸ hb
        · exact hwin k (by omega) hk'

/-- The invariant holds at the initial loop state. -/
theorem pollInvariant_initial (resp : Nat → IntentResponse) (clock : Nat → Nat) :
    PollInvariant resp clock initialPollState := by
  refine ⟨fun h => ?_, Or.inl rfl, fun i hi _ => absurd hi (by simp [initialPollState])⟩
  rcases h with h | h
  · exact absurd h (by simp [initialPollState])
  · exact absurd h (by simp [initialPollState])

/-- The loop body preserves the invariant. -/
theorem pollInvariant_step (resp : Nat → IntentResponse) (clock : Nat → Nat)
    (st : PollState) (h : PollInvariant resp clock st) :
    PollInvariant resp clock
      (processFoundResponse clock (resp st.attempts) st) := by
  obtain ⟨h1, h2, h3⟩ := h
  unfold processFoundResponse
  dsimp only
  by_cases hch : some (resp st.attempts).status = st.previousStatus
  · rw [if_neg (by simp [hch])]
    refine ⟨fun hc => ?_, ?_, fun i hi hf => ?_⟩
    · obtain ⟨i, hi, hf, he⟩ := h1 hc
      exact ⟨i, Nat.lt_succ_of_lt hi, hf, he⟩
    · rcases h2 with h2 | ⟨i, hi, he⟩
      · exact Or.inl h2
      · exact Or.inr ⟨i, Nat.lt_succ_of_lt hi, he⟩
    · rcases Nat.lt_succ_iff_lt_or_eq.mp hi with hlt | heq
      · exact h3 i hlt hf
      · subst heq
        have : st.previousStatus = some IntentStatus.fulfilled := by
          rw [← hch, hf]
        obtain ⟨_, _, _, he⟩ := h1 (Or.inl this)
        simp [he]
  · rw [if_pos (by simp; exact fun hc => absurd hc.symm hch)]
    by_cases hf : (resp st.attempts).status = IntentStatus.fulfilled
    · rw [if_pos hf]
      refine ⟨fun _ => ⟨st.attempts, Nat.lt_succ_self _, hf, rfl⟩, ?_,
        fun i hi _ => by simp⟩
      exact Or.inr ⟨st.attempts, Nat.lt_succ_self _, rfl⟩
    · rw [if_neg hf]
      refine ⟨fun hc => ?_, Or.inr ⟨st.attempts, Nat.lt_succ_self _, rfl⟩,
        fun i hi hfi => ?_⟩
      · rcases hc with hc | hc
        · exact absurd (Option.some.inj hc) hf
        · obtain ⟨i, hi, hfi, he⟩ := h1 (Or.inr hc)
          exact ⟨i, Nat.lt_succ_of_lt hi, hfi, he⟩
      · rcases Nat.lt_succ_iff_lt_or_eq.mp hi with hlt | heq
        · exact h3 i hlt hfi
        · exact absurd (heq ▸ hfi) hf

/-- Result assembly when both timestamps were recorded
(`src/speedrun/api.ts` lines 132-146). -/
theorem buildStatusResult_both (clock : Nat → Nat) (st : PollState)
    (f s : Nat) (hf : st.fulfilledAt = some f) (hs : st.settledAt = some s) :
    buildStatusResult clock st =
      { intent := st.intent
        fulfilledAt := some f
        settledAt := some s
        timeToFulfill := some ((f : Int) - (clock 0 : Int))
        timeToSettle := some ((s : Int) - (f : Int))
        totalTime := some ((s : Int) - (clock 0 : Int)) } := by
  unfold buildStatusResult
  rw [hf, hs]

/-- Result assembly when no settlement timestamp was recorded. -/
theorem buildStatusResult_no_settled (clock : Nat → Nat) (st : PollState)
    (hs : st.settledAt = none) :
    (buildStatusResult clock st).settledAt = none ∧
    (buildStatusResult clock st).timeToSettle = none ∧
    (buildStatusResult clock st).totalTime = none := by
  unfold buildStatusResult
  rw [hs]
  cases st.fulfilledAt <;> simp

/-- Processing a settled response after a different previous status records
the settlement timestamp. -/
theorem processFoundResponse_settledAt_settled (clock : Nat → Nat)
    (r : IntentResponse) (st : PollState)
    (hr : r.status = IntentStatus.settled)
    (h : st.previousStatus ≠ some r.status) :
    (processFoundResponse clock r st).settledAt =
      some (clock (st.attempts + 1)) := by
  unfold processFoundResponse
  rw [if_pos (by exact ⟨h, rfl⟩), if_pos hr]

/-- Processing a response whose status is not `fulfilled` leaves the
fulfillment timestamp unchanged. -/
theorem processFoundResponse_fulfilledAt_of_ne (clock : Nat → Nat)
    (r : IntentResponse) (st : PollState)
    (hr : r.status ≠ IntentStatus.fulfilled) :
    (processFoundResponse clock r st).fulfilledAt = st.fulfilledAt := by
  unfold processFoundResponse
  dsimp only
  split
  · simp [hr]
  · rfl

/-- C2: observing status `fulfilled` never stops the polling loop.  For
every session on found responses whose target statuses include `settled`
(the sessions of this program use `["fulfilled", "settled"]`, so the
targets are among those two), the loop either exhausts `maxAttempts` or
stops at the first `settled` response — never at a `fulfilled` one.  In
particular, on responses `[pending, fulfilled, fulfilled, fulfilled]` with
`maxAttempts = 4`, all 4 attempts are performed and the result carries the
last-seen intent with status `fulfilled` and no `settledAt`. -/
theorem c2_fulfilled_never_stops_polling :
    (∀ (resp : Nat → IntentResponse) (clock : Nat → Nat)
        (targets : List IntentStatus) (maxAttempts : Nat),
      (∀ s ∈ targets, s = IntentStatus.fulfilled ∨ s = IntentStatus.settled) →
      IntentStatus.settled ∈ targets →
      ∃ st, pollLoop (foundResponses resp) clock targets maxAttempts
          initialPollState = Except.ok st ∧
        (st.attempts = maxAttempts ∨
          ((resp (st.attempts - 1)).status = IntentStatus.settled ∧
            ∀ k, k < st.attempts - 1 →
              (resp k).status ≠ IntentStatus.settled))) ∧
    ((pollLoop
        (foundResponses (statusListResponses
          [IntentStatus.pending, IntentStatus.fulfilled,
           IntentStatus.fulfilled, IntentStatus.fulfilled]))
        tickClock [IntentStatus.fulfilled, IntentStatus.settled] 4
        initialPollState).map PollState.attempts = Except.ok 4 ∧
      pollIntentStatus
        (foundResponses (statusListResponses
          [IntentStatus.pending, IntentStatus.fulfilled,
           IntentStatus.fulfilled, IntentStatus.fulfilled]))
        tickClock [IntentStatus.fulfilled, IntentStatus.settled] 4 =
      Except.ok
        { intent := some (sampleIntent IntentStatus.fulfilled)
          fulfilledAt := some 2000
          timeToFulfill := some 2000 }) := by
  constructor
  · intro resp clock targets maxAttempts htar hset
    obtain ⟨st', hrun, hcase⟩ :=
      pollLoop_found_shape resp clock targets maxAttempts initialPollState
    refine ⟨st', hrun, ?_⟩
    rcases hcase with ⟨_, hn, _⟩ | ⟨stj, _, _, _, _, hb, h4, hwin⟩
    · exact Or.inl (by simpa [initialPollState] using hn)
    · refine Or.inr ⟨?_, fun k hk => ?_⟩
      · have : (resp (st'.attempts - 1)).status ∈ targets ∧
            (resp (st'.attempts - 1)).status ≠ IntentStatus.fulfilled := by
          rw [h4]; simpa using hb
        rcases htar _ this.1 with h | h
        · exact absurd h this.2
        · exact h
      · intro hks
        have hk' : k < stj.attempts := by omega
        exact hwin k (Nat.zero_le k) hk' ⟨hks ▸ hset, hks ▸ (by decide)⟩
  · exact ⟨rfl, rfl⟩

/-- C4: a session on found responses that observes `fulfilled` at some
attempt and first observes `settled` at a later attempt `j < maxAttempts`
stops immediately after processing response `j` (exactly `j + 1` API
queries), and its result has `timeToFulfill` and `timeToSettle` defined and
non-negative with `totalTime = timeToFulfill + timeToSettle`. -/
theorem c4_settled_stops_with_timing (resp : Nat → IntentResponse)
    (clock : Nat → Nat) (targets : List IntentStatus) (maxAttempts j : Nat)
    (hmono : Monotone clock)
    (htar : ∀ s ∈ targets, s = IntentStatus.fulfilled ∨ s = IntentStatus.settled)
    (hset : IntentStatus.settled ∈ targets)
    (hj : j < maxAttempts)
    (hjs : (resp j).status = IntentStatus.settled)
    (hfirst : ∀ k, k < j → (resp k).status ≠ IntentStatus.settled)
    (hf : ∃ i, i < j ∧ (resp i).status = IntentStatus.fulfilled) :
    ∃ st t1 t2,
      pollLoop (foundResponses resp) clock targets maxAttempts
        initialPollState = Except.ok st ∧
      st.attempts = j + 1 ∧
      pollIntentStatus (foundResponses resp) clock targets maxAttempts =
        Except.ok (buildStatusResult clock st) ∧
      (buildStatusResult clock st).timeToFulfill = some t1 ∧
      (buildStatusResult clock st).timeToSettle = some t2 ∧
      0 ≤ t1 ∧ 0 ≤ t2 ∧
      (buildStatusResult clock st).totalTime = some (t1 + t2) := by
  obtain ⟨st', hrun, hcase⟩ :=
    pollLoop_found_shape resp clock targets maxAttempts initialPollState
  have hBj : BreaksAt resp targets j := ⟨hjs ▸ hset, hjs ▸ (by decide)⟩
  rcases hcase with ⟨_, hn, hwin⟩ | ⟨stj, hsteps, hst', _, _, hb, h4, hwin⟩
  · exact absurd hBj (hwin j (Nat.zero_le j)
      (by simp only [initialPollState] at hn; omega))
  · -- The break happens exactly at the first settled response, index j.
    have hjeq : stj.attempts = j := by
      rcases Nat.lt_trichotomy stj.attempts j with h | h | h
      · rcases htar _ hb.1 with hc | hc
        · exact absurd hc hb.2
        · exact absurd hc (hfirst _ h)
      · exact h
      · exact absurd hBj (hwin j (Nat.zero_le j) h)
    have hinv : PollInvariant resp clock stj :=
      pollSteps_invariant (PollInvariant resp clock)
        (pollInvariant_step resp clock) hsteps
        (pollInvariant_initial resp clock)
    obtain ⟨h1, h2, h3⟩ := hinv
    obtain ⟨i, hij, hif⟩ := hf
    have hsome : stj.fulfilledAt.isSome := h3 i (by omega) hif
    obtain ⟨i0, hi0, _, he0⟩ := h1 (Or.inr hsome)
    have hchange : stj.previousStatus ≠ some ((resp stj.attempts).status) := by
      rcases h2 with h2 | ⟨i', hi', he'⟩
      · simp [h2]
      · rw [he', hjeq, hjs]
        intro hcon
        exact hfirst i' (by omega) (Option.some.inj hcon)
    have hsettled : st'.settledAt = some (clock (j + 1)) := by
      rw [hst', processFoundResponse_settledAt_settled clock _ stj
        (by rw [hjeq]; exact hjs) hchange, hjeq]
    have hfulfilled : st'.fulfilledAt = some (clock (i0 + 1)) := by
      rw [hst', processFoundResponse_fulfilledAt_of_ne clock _ stj
        (by rw [hjeq, hjs]; decide), he0]
    have hbuild := buildStatusResult_both clock st' _ _ hfulfilled hsettled
    refine ⟨st', (clock (i0 + 1) : Int) - (clock 0 : Int),
      (clock (j + 1) : Int) - (clock (i0 + 1) : Int), hrun, by omega, ?_, ?_, ?_, ?_, ?_, ?_⟩
    · unfold pollIntentStatus
      rw [hrun]
    · rw [hbuild]
    · rw [hbuild]
    · have := hmono (Nat.zero_le (i0 + 1))
      omega
    · have := hmono (show i0 + 1 ≤ j + 1 by omega)
      omega
    · rw [hbuild]
      exact congrArg some (by ring)

/-- Witness for C2: the general statement applied to the concrete session
`[pending, fulfilled, fulfilled, fulfilled]` with `maxAttempts = 7`. -/
theorem c2_fulfilled_never_stops_polling_witness :
    ∃ st, pollLoop
        (foundResponses (statusListResponses
          [IntentStatus.pending, IntentStatus.fulfilled,
           IntentStatus.fulfilled, IntentStatus.fulfilled]))
        tickClock [IntentStatus.fulfilled, IntentStatus.settled] 7
        initialPollState = Except.ok st ∧
      (st.attempts = 7 ∨
        ((statusListResponses
            [IntentStatus.pending, IntentStatus.fulfilled,
             IntentStatus.fulfilled, IntentStatus.fulfilled]
          (st.attempts - 1)).status = IntentStatus.settled ∧
          ∀ k, k < st.attempts - 1 →
            (statusListResponses
              [IntentStatus.pending, IntentStatus.fulfilled,
               IntentStatus.fulfilled, IntentStatus.fulfilled]
              k).status ≠ IntentStatus.settled)) :=
  c2_fulfilled_never_stops_polling.1 _ tickClock _ 7 (by decide) (by decide)

/-- Witness for C4: the concrete session `[pending, pending, fulfilled,
settled]` with `maxAttempts = 10` stops after 4 attempts with both timing
metrics defined and additive. -/
theorem c4_settled_stops_with_timing_witness :
    ∃ st t1 t2,
      pollLoop (foundResponses (statusListResponses
          [IntentStatus.pending, IntentStatus.pending,
           IntentStatus.fulfilled, IntentStatus.settled]))
        tickClock [IntentStatus.fulfilled, IntentStatus.settled] 10
        initialPollState = Except.ok st ∧
      st.attempts = 3 + 1 ∧
      pollIntentStatus (foundResponses (statusListResponses
          [IntentStatus.pending, IntentStatus.pending,
           IntentStatus.fulfilled, IntentStatus.settled]))
        tickClock [IntentStatus.fulfilled, IntentStatus.settled] 10 =
        Except.ok (buildStatusResult tickClock st) ∧
      (buildStatusResult tickClock st).timeToFulfill = some t1 ∧
      (buildStatusResult tickClock st).timeToSettle = some t2 ∧
      0 ≤ t1 ∧ 0 ≤ t2 ∧
      (buildStatusResult tickClock st).totalTime = some (t1 + t2) :=
  c4_settled_stops_with_timing _ tickClock _ 10 3
    (fun _ _ h => by simp only [tickClock]; omega)
    (by decide) (by decide) (by decide) (by decide) (by decide) (by decide)

/-- One unfolding of the loop on a non-404 API error: `getIntent`
re-throws and the loop propagates the error. -/
theorem pollLoop_succ_apiError (responses : Nat → ApiResponse)
    (clock : Nat → Nat) (targets : List IntentStatus) (n : Nat)
    (st : PollState) (h : responses st.attempts = ApiResponse.apiError) :
    pollLoop responses clock targets (n + 1) st =
      Except.error PollError.apiFailure := by
  conv_lhs => unfold pollLoop
  rw [h]

/-- One unfolding of the loop on a 404 response. -/
theorem pollLoop_succ_notFound (responses : Nat → ApiResponse)
    (clock : Nat → Nat) (targets : List IntentStatus) (n : Nat)
    (st : PollState) (h : responses st.attempts = ApiResponse.notFound) :
    pollLoop responses clock targets (n + 1) st =
      if MAX_NOT_FOUND_ATTEMPTS ≤ st.notFoundAttempts + 1 then
        Except.error PollError.notIndexed
      else
        pollLoop responses clock targets n (notFoundUpdate st) := by
  conv_lhs => unfold pollLoop
  rw [h]
  rfl

/-- One unfolding of the loop on a found response. -/
theorem pollLoop_succ_found (responses : Nat → ApiResponse)
    (clock : Nat → Nat) (targets : List IntentStatus) (n : Nat)
    (st : PollState) (r : IntentResponse)
    (h : responses st.attempts = ApiResponse.found r) :
    pollLoop responses clock targets (n + 1) st =
      if r.status ∈ targets ∧ r.status ≠ IntentStatus.fulfilled then
        Except.ok (processFoundResponse clock r st)
      else
        pollLoop responses clock targets n
          (processFoundResponse clock r st) := by
  conv_lhs => unfold pollLoop
  rw [h]

/-- A window containing a 404 response contributes at least one to the
404 count. -/
theorem countNotFound_pos (responses : Nat → ApiResponse) (n : Nat) :
    ∀ (a j : Nat), a ≤ j → j < a + n →
      responses j = ApiResponse.notFound →
      1 ≤ countNotFound responses a n := by
  induction n with
  | zero => intro a j h1 h2 _; omega
  | succ m ih =>
    intro a j h1 h2 h3
    by_cases he : a = j
    · subst he
      unfold countNotFound
      rw [if_pos h3]
      omega
    · have h := ih (a + 1) j (by omega) (by omega) h3
      unfold countNotFound
      split <;> omega

/-- Unfolding the 404 count at the back of the window. -/
theorem countNotFound_snoc (responses : Nat → ApiResponse) (n : Nat) :
    ∀ a, countNotFound responses a (n + 1) =
      countNotFound responses a n +
        (if responses (a + n) = ApiResponse.notFound then 1 else 0) := by
  induction n with
  | zero =>
    intro a
    unfold countNotFound
    unfold countNotFound
    simp
  | succ m ih =>
    intro a
    conv_lhs => unfold countNotFound
    rw [ih (a + 1)]
    conv_rhs => unfold countNotFound
    have : a + 1 + m = a + (m + 1) := by omega
    rw [this]
    omega

/-- Unfolding the 404 count at the front of the window. -/
theorem countNotFound_succ (responses : Nat → ApiResponse) (a n : Nat) :
    countNotFound responses a (n + 1) =
      (if responses a = ApiResponse.notFound then 1 else 0) +
        countNotFound responses (a + 1) n := by
  conv_lhs => unfold countNotFound

/-- The 404 branch performs `attempts++`. -/
theorem notFoundUpdate_attempts (st : PollState) :
    (notFoundUpdate st).attempts = st.attempts + 1 := rfl

/-- The 404 branch performs `notFoundAttempts++`. -/
theorem notFoundUpdate_notFoundAttempts (st : PollState) :
    (notFoundUpdate st).notFoundAttempts = st.notFoundAttempts + 1 := rfl

/-- As long as fewer than `MAX_NOT_FOUND_ATTEMPTS` 404s have accumulated
and no response breaks the loop or throws, the loop runs through its whole
window, accumulating the 404 count into `notFoundAttempts`. -/
theorem pollLoop_ok_of_few_notFound (responses : Nat → ApiResponse)
    (clock : Nat → Nat) (targets : List IntentStatus) (fuel : Nat)
    (st : PollState)
    (herr : ∀ k, st.attempts ≤ k → k < st.attempts + fuel →
      responses k ≠ ApiResponse.apiError)
    (hbreak : ∀ k r, st.attempts ≤ k → k < st.attempts + fuel →
      responses k = ApiResponse.found r →
      ¬(r.status ∈ targets ∧ r.status ≠ IntentStatus.fulfilled))
    (hcount : st.notFoundAttempts + countNotFound responses st.attempts fuel <
      MAX_NOT_FOUND_ATTEMPTS) :
    ∃ st', pollLoop responses clock targets fuel st = Except.ok st' ∧
      st'.attempts = st.attempts + fuel ∧
      st'.notFoundAttempts =
        st.notFoundAttempts + countNotFound responses st.attempts fuel := by
  induction fuel generalizing st with
  | zero =>
    refine ⟨st, rfl, by omega, ?_⟩
    unfold countNotFound
    omega
  | succ n ih =>
    cases hre : responses st.attempts with
    | apiError => exact absurd hre (herr st.attempts (le_refl _) (by omega))
    | notFound =>
      rw [countNotFound_succ, if_pos hre] at hcount ⊢
      rw [pollLoop_succ_notFound responses clock targets n st hre,
        if_neg (by unfold MAX_NOT_FOUND_ATTEMPTS at *; omega)]
      have hA := notFoundUpdate_attempts st
      have hN := notFoundUpdate_notFoundAttempts st
      obtain ⟨st', hrun, h1, h2⟩ := ih (notFoundUpdate st)
        (fun k hk hk' => herr k (by omega) (by omega))
        (fun k r hk hk' => hbreak k r (by omega) (by omega))
        (by rw [hN, hA]; omega)
      rw [hA] at h1
      rw [hA, hN] at h2
      exact ⟨st', hrun, by omega, by omega⟩
    | found r =>
      rw [countNotFound_succ, if_neg (by simp [hre])] at hcount ⊢
      rw [pollLoop_succ_found responses clock targets n st r hre,
        if_neg (hbreak st.attempts r (le_refl _) (by omega) hre)]
      have hA := processFoundResponse_attempts clock r st
      have hN := processFoundResponse_notFoundAttempts clock r st
      obtain ⟨st', hrun, h1, h2⟩ := ih (processFoundResponse clock r st)
        (fun k hk hk' => herr k (by omega) (by omega))
        (fun k r' hk hk' => hbreak k r' (by omega) (by omega))
        (by rw [hN, hA]; omega)
      rw [hA] at h1
      rw [hA, hN] at h2
      exact ⟨st', hrun, by omega, by omega⟩

/-- If the response at index `j` is the 404 that brings the accumulated
404 count to `MAX_NOT_FOUND_ATTEMPTS`, and nothing before `j` breaks the
loop or throws, the loop throws the distinct not-indexed error while
processing response `j`. -/
theorem pollLoop_notIndexed_at_threshold (responses : Nat → ApiResponse)
    (clock : Nat → Nat) (targets : List IntentStatus) (fuel : Nat)
    (st : PollState) (j : Nat)
    (hj1 : st.attempts ≤ j) (hj2 : j < st.attempts + fuel)
    (hjn : responses j = ApiResponse.notFound)
    (hcount : st.notFoundAttempts +
      countNotFound responses st.attempts (j + 1 - st.attempts) =
      MAX_NOT_FOUND_ATTEMPTS)
    (herr : ∀ k, st.attempts ≤ k → k < j → responses k ≠ ApiResponse.apiError)
    (hbreak : ∀ k r, st.attempts ≤ k → k < j →
      responses k = ApiResponse.found r →
      ¬(r.status ∈ targets ∧ r.status ≠ IntentStatus.fulfilled)) :
    pollLoop responses clock targets fuel st =
      Except.error PollError.notIndexed := by
  induction fuel generalizing st with
  | zero => omega
  | succ n ih =>
    by_cases hej : st.attempts = j
    · have hre : responses st.attempts = ApiResponse.notFound := hej ▸ hjn
      rw [pollLoop_succ_notFound responses clock targets n st hre]
      have hlen : j + 1 - st.attempts = 0 + 1 := by omega
      rw [hlen, countNotFound_succ, if_pos hre] at hcount
      unfold countNotFound at hcount
      rw [if_pos (by omega)]
    · have hlt : st.attempts < j := by omega
      have hlen : j + 1 - st.attempts = (j - st.attempts) + 1 := by omega
      rw [hlen, countNotFound_succ] at hcount
      cases hre : responses st.attempts with
      | apiError => exact absurd hre (herr st.attempts (le_refl _) hlt)
      | notFound =>
        rw [if_pos hre] at hcount
        have hge := countNotFound_pos responses (j - st.attempts)
          (st.attempts + 1) j (by omega) (by omega) hjn
        rw [pollLoop_succ_notFound responses clock targets n st hre,
          if_neg (by unfold MAX_NOT_FOUND_ATTEMPTS at *; omega)]
        have hA := notFoundUpdate_attempts st
        have hN := notFoundUpdate_notFoundAttempts st
        exact ih (notFoundUpdate st) (by omega) (by omega)
          (by
            rw [hN, hA]
            have hlen2 : j + 1 - (st.attempts + 1) = j - st.attempts := by omega
            rw [hlen2]
            omega)
          (fun k hk hk' => herr k (by omega) hk')
          (fun k r hk hk' => hbreak k r (by omega) hk')
      | found r =>
        rw [if_neg (by simp [hre])] at hcount
        rw [pollLoop_succ_found responses clock targets n st r hre,
          if_neg (hbreak st.attempts r (le_refl _) hlt hre)]
        have hA := processFoundResponse_attempts clock r st
        have hN := processFoundResponse_notFoundAttempts clock r st
        exact ih (processFoundResponse clock r st) (by omega) (by omega)
          (by
            rw [hN, hA]
            have hlen2 : j + 1 - (st.attempts + 1) = j - st.attempts := by omega
            rw [hlen2]
            omega)
          (fun k hk hk' => herr k (by omega) hk')
          (fun k r' hk hk' => hbreak k r' (by omega) hk')

/-- Counterexample to C3: the 404 tolerance of `pollIntentStatus` is NOT
reset by a successful lookup.  In this session attempt 4 (0-based) finds
the intent, and attempt 5 is a 404 directly preceded by that success — only
one consecutive 404 — yet the code raises the not-indexed error there,
because `notFoundAttempts` counts 404s cumulatively
(`src/speedrun/api.ts` lines 88-94: the counter is incremented in the
`!intent` branch and never reset in the `else` branch). -/
theorem c3_counterexample :
    c3NotFoundScript 3 = ApiResponse.notFound ∧
    c3NotFoundScript 4 =
      ApiResponse.found (sampleIntent IntentStatus.pending) ∧
    c3NotFoundScript 5 = ApiResponse.notFound ∧
    pollIntentStatus c3NotFoundScript tickClock
      [IntentStatus.fulfilled, IntentStatus.settled] 6 =
      Except.error PollError.notIndexed :=
  ⟨rfl, rfl, rfl, rfl⟩

/-- C3 (amended): `pollIntentStatus` tolerates at most
`MAX_NOT_FOUND_ATTEMPTS = 5` 404 responses per session IN TOTAL: it raises
the distinct not-indexed error (distinguishable from the propagated generic
`apiFailure`) at the attempt that observes the 5th 404 overall — not
earlier, as the first conjunct shows the loop completing the preceding
attempts with four accumulated 404s — and successful lookups in between do
not reset the count. -/
theorem c3_amended_cumulative_not_found (responses : Nat → ApiResponse)
    (clock : Nat → Nat) (targets : List IntentStatus) (maxAttempts j : Nat)
    (hj : j < maxAttempts)
    (hjn : responses j = ApiResponse.notFound)
    (hcount : countNotFound responses 0 (j + 1) = MAX_NOT_FOUND_ATTEMPTS)
    (herr : ∀ k, k < j → responses k ≠ ApiResponse.apiError)
    (hbreak : ∀ k r, k < j → responses k = ApiResponse.found r →
      ¬(r.status ∈ targets ∧ r.status ≠ IntentStatus.fulfilled)) :
    (∃ st, pollLoop responses clock targets j initialPollState =
        Except.ok st ∧
      st.notFoundAttempts = MAX_NOT_FOUND_ATTEMPTS - 1) ∧
    pollIntentStatus responses clock targets maxAttempts =
      Except.error PollError.notIndexed := by
  have h0a : initialPollState.attempts = 0 := rfl
  have h0n : initialPollState.notFoundAttempts = 0 := rfl
  constructor
  · have hcj : countNotFound responses 0 j = MAX_NOT_FOUND_ATTEMPTS - 1 := by
      rw [countNotFound_snoc] at hcount
      rw [if_pos (by simpa using hjn)] at hcount
      unfold MAX_NOT_FOUND_ATTEMPTS at *
      omega
    obtain ⟨st, hrun, _, hn⟩ :=
      pollLoop_ok_of_few_notFound responses clock targets j initialPollState
        (fun k hk hk' => herr k (by omega))
        (fun k r hk hk' => hbreak k r (by omega))
        (by rw [h0a, h0n, hcj]; unfold MAX_NOT_FOUND_ATTEMPTS; omega)
    rw [h0a, h0n, hcj] at hn
    exact ⟨st, hrun, by omega⟩
  · unfold pollIntentStatus
    rw [pollLoop_notIndexed_at_threshold responses clock targets maxAttempts
      initialPollState j (by omega) (by rw [h0a]; omega) hjn
      (by rw [h0a, h0n]; simpa using hcount)
      (fun k hk hk' => herr k (by omega))
      (fun k r hk hk' => hbreak k r (by omega))]

/-- Witness for the amended C3: in the session
`[404, 404, 404, 404, found(pending), 404]` the error is raised at attempt
5, the 5th 404 overall, even though a successful lookup intervened. -/
theorem c3_amended_cumulative_not_found_witness :
    (∃ st, pollLoop c3NotFoundScript tickClock
        [IntentStatus.fulfilled, IntentStatus.settled] 5 initialPollState =
        Except.ok st ∧
      st.notFoundAttempts = MAX_NOT_FOUND_ATTEMPTS - 1) ∧
    pollIntentStatus c3NotFoundScript tickClock
      [IntentStatus.fulfilled, IntentStatus.settled] 6 =
      Except.error PollError.notIndexed :=
  c3_amended_cumulative_not_found c3NotFoundScript tickClock
    [IntentStatus.fulfilled, IntentStatus.settled] 6 5
    (by omega) rfl (by decide)
    (by intro k hk; interval_cases k <;> simp [c3NotFoundScript])
    (by
      intro k r hk hre
      interval_cases k <;> simp [c3NotFoundScript] at hre
      subst hre
      decide)

/-- The loop body sends observably equal inputs to observably equal
states: the branch decisions read only `status` and `previousStatus`. -/
theorem processFoundResponse_sameObservable (clock : Nat → Nat)
    {r r' : IntentResponse} {st st' : PollState}
    (hr : sameObservable r r') (hst : sameObservableState st st') :
    sameObservableState (processFoundResponse clock r st)
      (processFoundResponse clock r' st') := by
  obtain ⟨hid, hstat, hft, hstx⟩ := hr
  obtain ⟨ha, hint, hprev, hfound, hfa, hsa, hnf⟩ := hst
  unfold processFoundResponse
  dsimp only
  rw [← hstat, ← hprev, ← ha, ← hfa, ← hsa, ← hnf]
  unfold sameObservableState sameObservableOpt
  split_ifs <;>
    exact ⟨rfl, ⟨hid, hstat, hft, hstx⟩, rfl, rfl, rfl, rfl, rfl⟩

/-- Two sessions whose responses agree up to the remote timestamps run in
lockstep: the polling loop never reads `created_at` / `updated_at`. -/
theorem pollLoop_sameObservable (responses responses' : Nat → ApiResponse)
    (clock : Nat → Nat) (targets : List IntentStatus)
    (hresp : ∀ k, sameObservableApi (responses k) (responses' k))
    (fuel : Nat) (st st' : PollState) (hst : sameObservableState st st') :
    sameObservableExcept (pollLoop responses clock targets fuel st)
      (pollLoop responses' clock targets fuel st') := by
  induction fuel generalizing st st' with
  | zero => exact hst
  | succ n ih =>
    have ha : st.attempts = st'.attempts := hst.1
    have hr := hresp st.attempts
    rw [ha] at hr
    cases hre : responses st'.attempts with
    | apiError =>
      cases hre' : responses' st'.attempts with
      | apiError =>
        rw [← ha] at hre
        rw [pollLoop_succ_apiError responses clock targets n st (ha ▸ hre),
          pollLoop_succ_apiError responses' clock targets n st' hre']
        rfl
      | notFound => rw [hre, hre'] at hr; exact absurd hr (by simp [sameObservableApi])
      | found r => rw [hre, hre'] at hr; exact absurd hr (by simp [sameObservableApi])
    | notFound =>
      cases hre' : responses' st'.attempts with
      | apiError => rw [hre, hre'] at hr; exact absurd hr (by simp [sameObservableApi])
      | found r => rw [hre, hre'] at hr; exact absurd hr (by simp [sameObservableApi])
      | notFound =>
        rw [pollLoop_succ_notFound responses clock targets n st (ha ▸ hre),
          pollLoop_succ_notFound responses' clock targets n st' hre']
        rw [hst.2.2.2.2.2.2]
        by_cases hm : MAX_NOT_FOUND_ATTEMPTS ≤ st'.notFoundAttempts + 1
        · rw [if_pos hm, if_pos hm]
          rfl
        · rw [if_neg hm, if_neg hm]
          exact ih _ _ ⟨by simp [notFoundUpdate, ha], trivial,
            hst.2.2.1, hst.2.2.2.1, hst.2.2.2.2.1, hst.2.2.2.2.2.1,
            by simp [notFoundUpdate, hst.2.2.2.2.2.2]⟩
    | found r =>
      cases hre' : responses' st'.attempts with
      | apiError => rw [hre, hre'] at hr; exact absurd hr (by simp [sameObservableApi])
      | notFound => rw [hre, hre'] at hr; exact absurd hr (by simp [sameObservableApi])
      | found r' =>
        rw [hre, hre'] at hr
        have hr2 : sameObservable r r' := hr
        rw [pollLoop_succ_found responses clock targets n st r (ha ▸ hre),
          pollLoop_succ_found responses' clock targets n st' r' hre']
        rw [hr2.2.1]
        by_cases hb : r'.status ∈ targets ∧ r'.status ≠ IntentStatus.fulfilled
        · rw [if_pos hb, if_pos hb]
          exact processFoundResponse_sameObservable clock hr2 hst
        · rw [if_neg hb, if_neg hb]
          exact ih _ _ (processFoundResponse_sameObservable clock hr2 hst)

/-- Field characterization of the result assembly: the returned `settledAt`,
`timeToSettle` and `totalTime` are present exactly when both timestamps
were recorded, and `fulfilledAt` / `timeToFulfill` exactly when the
fulfillment timestamp was. -/
theorem buildStatusResult_isSome (clock : Nat → Nat) (st : PollState) :
    ((buildStatusResult clock st).settledAt.isSome ↔
      st.settledAt.isSome ∧ st.fulfilledAt.isSome) ∧
    ((buildStatusResult clock st).timeToSettle.isSome ↔
      st.settledAt.isSome ∧ st.fulfilledAt.isSome) ∧
    ((buildStatusResult clock st).totalTime.isSome ↔
      st.settledAt.isSome ∧ st.fulfilledAt.isSome) ∧
    ((buildStatusResult clock st).fulfilledAt.isSome ↔ st.fulfilledAt.isSome) ∧
    ((buildStatusResult clock st).timeToFulfill.isSome ↔ st.fulfilledAt.isSome) := by
  unfold buildStatusResult
  rcases hs : st.settledAt with _ | s <;> rcases hf : st.fulfilledAt with _ | f <;>
    simp

/-- Result assembly preserves agreement of the timing fields. -/
theorem buildStatusResult_timingAgrees (clock : Nat → Nat)
    {st st' : PollState} (h : sameObservableState st st') :
    timingAgrees (Except.ok (buildStatusResult clock st))
      (Except.ok (buildStatusResult clock st')) := by
  obtain ⟨_, _, _, _, hfa, hsa, _⟩ := h
  unfold buildStatusResult
  rw [hfa, hsa]
  rcases st'.settledAt with _ | s <;> rcases st'.fulfilledAt with _ | f <;>
    exact ⟨rfl, rfl, rfl, rfl, rfl⟩

/-- Counterexample to C5: a session that observes `settled` without ever
observing `fulfilled` does NOT get `settledAt` in the returned result —
`src/speedrun/api.ts` line 140 guards the `result.settledAt` assignment
with `settledAt && fulfilledAt`.  The claim states `settledAt` is recorded
in the returned result even if `fulfilled` was never observed; here the
only response is `settled`, polling stops on it, and the result's
`settledAt` is absent. -/
theorem c5_counterexample :
    pollIntentStatus (foundResponses (statusListResponses
        [IntentStatus.settled])) tickClock
      [IntentStatus.fulfilled, IntentStatus.settled] 5 =
      Except.ok { intent := some (sampleIntent IntentStatus.settled) } ∧
    ({ intent := some (sampleIntent IntentStatus.settled) } :
      IntentStatusResult).settledAt = none :=
  ⟨rfl, rfl⟩

/-- C5 (amended): when `settled` is first observed the poller records
`settledAt` internally (first conjunct), but the returned result includes
`settledAt`, `timeToSettle` and `totalTime` only when `fulfilledAt` was
also observed in the same session (second conjunct), and no timing field of
the result depends on the remote record's `created_at` / `updated_at`
timestamps (third conjunct: two sessions whose responses differ only in
those fields produce identical timing metrics). -/
theorem c5_amended_settled_recording :
    (∀ (clock : Nat → Nat) (r : IntentResponse) (st : PollState),
      r.status = IntentStatus.settled →
      st.previousStatus ≠ some r.status →
      (processFoundResponse clock r st).settledAt =
        some (clock (st.attempts + 1))) ∧
    (∀ (responses : Nat → ApiResponse) (clock : Nat → Nat)
        (targets : List IntentStatus) (maxAttempts : Nat) (st : PollState),
      pollLoop responses clock targets maxAttempts initialPollState =
        Except.ok st →
      pollIntentStatus responses clock targets maxAttempts =
        Except.ok (buildStatusResult clock st) ∧
      ((buildStatusResult clock st).settledAt.isSome ↔
        st.settledAt.isSome ∧ st.fulfilledAt.isSome) ∧
      ((buildStatusResult clock st).timeToSettle.isSome ↔
        st.settledAt.isSome ∧ st.fulfilledAt.isSome) ∧
      ((buildStatusResult clock st).totalTime.isSome ↔
        st.settledAt.isSome ∧ st.fulfilledAt.isSome)) ∧
    (∀ (responses responses' : Nat → ApiResponse) (clock : Nat → Nat)
        (targets : List IntentStatus) (maxAttempts : Nat),
      (∀ k, sameObservableApi (responses k) (responses' k)) →
      timingAgrees (pollIntentStatus responses clock targets maxAttempts)
        (pollIntentStatus responses' clock targets maxAttempts)) := by
  refine ⟨processFoundResponse_settledAt_settled, ?_, ?_⟩
  · intro responses clock targets maxAttempts st h
    have hb := buildStatusResult_isSome clock st
    refine ⟨?_, hb.1, hb.2.1, hb.2.2.1⟩
    unfold pollIntentStatus
    rw [h]
  · intro responses responses' clock targets maxAttempts hresp
    have hrel := pollLoop_sameObservable responses responses' clock targets
      hresp maxAttempts initialPollState initialPollState
      ⟨rfl, trivial, rfl, rfl, rfl, rfl, rfl⟩
    unfold pollIntentStatus
    cases h1 : pollLoop responses clock targets maxAttempts initialPollState with
    | ok st =>
      cases h2 : pollLoop responses' clock targets maxAttempts initialPollState with
      | ok st' =>
        rw [h1, h2] at hrel
        exact buildStatusResult_timingAgrees clock hrel
      | error e =>
        rw [h1, h2] at hrel
        exact hrel.elim
    | error e =>
      cases h2 : pollLoop responses' clock targets maxAttempts initialPollState with
      | ok st' =>
        rw [h1, h2] at hrel
        exact hrel.elim
      | error e' =>
        rw [h1, h2] at hrel
        exact hrel

/-- Witness for the amended C5: all three conjuncts applied at concrete
inputs — recording `settledAt` internally on a fresh `settled` response,
the result-assembly characterization on the single-`settled` session, and
timing agreement between that session and one with different remote
timestamps. -/
theorem c5_amended_settled_recording_witness :
    (processFoundResponse tickClock (sampleIntent IntentStatus.settled)
        initialPollState).settledAt =
      some (tickClock (initialPollState.attempts + 1)) ∧
    (pollIntentStatus (foundResponses (statusListResponses
        [IntentStatus.settled])) tickClock
        [IntentStatus.fulfilled, IntentStatus.settled] 5 =
      Except.ok (buildStatusResult tickClock c5SettledOnlyState) ∧
      ((buildStatusResult tickClock c5SettledOnlyState).settledAt.isSome ↔
        c5SettledOnlyState.settledAt.isSome ∧
          c5SettledOnlyState.fulfilledAt.isSome) ∧
      ((buildStatusResult tickClock c5SettledOnlyState).timeToSettle.isSome ↔
        c5SettledOnlyState.settledAt.isSome ∧
          c5SettledOnlyState.fulfilledAt.isSome) ∧
      ((buildStatusResult tickClock c5SettledOnlyState).totalTime.isSome ↔
        c5SettledOnlyState.settledAt.isSome ∧
          c5SettledOnlyState.fulfilledAt.isSome)) ∧
    timingAgrees
      (pollIntentStatus (foundResponses (statusListResponses
        [IntentStatus.settled])) tickClock
        [IntentStatus.fulfilled, IntentStatus.settled] 5)
      (pollIntentStatus c5AltResponses tickClock
        [IntentStatus.fulfilled, IntentStatus.settled] 5) :=
  ⟨c5_amended_settled_recording.1 tickClock (sampleIntent IntentStatus.settled)
      initialPollState rfl (by decide),
    c5_amended_settled_recording.2.1 _ tickClock _ 5 c5SettledOnlyState rfl,
    c5_amended_settled_recording.2.2 _ c5AltResponses tickClock _ 5
      (fun k => ⟨rfl, rfl, rfl, rfl⟩)⟩

/-- C1 (bug evidence): mutual exclusion of the chain lock is violated by
three transfers sharing a source chain.  Task 0 installs the lock entry;
tasks 1 and 2 both await the stored promise; task 0's release deletes the
entry and resolves that one promise, waking BOTH waiters, and neither
installs a new entry on resumption (`acquireLock` just returns after the
`await`) — so tasks 1 and 2 are simultaneously inside the submission
phase for chain `"8453"`.  FIFO handover is violated by the same trace:
the two queued acquirers are granted the lock at once rather than in
acquisition order. -/
theorem c1_lock_mutual_exclusion_violated :
    (threeSameChainBatch.tasks.map BatchTask.chain = ["8453", "8453", "8453"]) ∧
    (runSchedule threeSameChainBatch [0, 1, 2, 0, 1, 2]).map
        (fun s => ((s.tasks.get? 1).map BatchTask.phase,
                   (s.tasks.get? 2).map BatchTask.phase)) =
      some (some TaskPhase.submitting, some TaskPhase.submitting) :=
  ⟨rfl, rfl⟩

/-- C8: the submission phase is exception-safe.  For any lock-manager
state in which the chain is free and ANY submission outcome — normal
return or thrown error — the phase returns that very outcome (errors
propagate only after the `finally` block), the lock entry for the chain is
gone, the promise created by this acquisition is resolved, a fresh
acquisition on the same chain immediately succeeds, and any task queued
awaiting this acquisition's promise becomes runnable and enters its own
submission phase on its next scheduler step — no deadlock. -/
theorem c8_lock_released_on_every_exit (m : LockManager) (chainId : String)
    (submission : Except String (String × String))
    (hfree : m.locks.lookup (lockKey chainId) = none) :
    ∃ mr, executeSubmissionPhase m chainId submission =
        some (mr, submission) ∧
      mr.locks.lookup (lockKey chainId) = none ∧
      m.nextPromiseId ∈ mr.resolvedPromises ∧
      (∃ ma, acquireLock mr chainId = AcquireOutcome.acquired ma) ∧
      (∀ (s : BatchState) (tid : Nat) (t : BatchTask), s.mgr = mr →
        s.tasks.get? tid = some t →
        t.phase = TaskPhase.waiting m.nextPromiseId →
        ∃ s', stepTask s tid = some s' ∧
          (s'.tasks.get? tid).map BatchTask.phase =
            some TaskPhase.submitting) := by
  have hacq : acquireLock m chainId = AcquireOutcome.acquired
      { m with
        locks := (lockKey chainId, m.nextPromiseId) :: m.locks
        nextPromiseId := m.nextPromiseId + 1 } := by
    unfold acquireLock
    rw [hfree]
  have hrel : releaseLock
      { m with
        locks := (lockKey chainId, m.nextPromiseId) :: m.locks
        nextPromiseId := m.nextPromiseId + 1 } chainId =
      { m with
        locks := m.locks
        nextPromiseId := m.nextPromiseId + 1
        resolvedPromises := m.nextPromiseId :: m.resolvedPromises } := by
    unfold releaseLock
    simp [List.lookup, List.eraseP_cons_of_pos]
  refine ⟨{ m with
      locks := m.locks
      nextPromiseId := m.nextPromiseId + 1
      resolvedPromises := m.nextPromiseId :: m.resolvedPromises },
    by unfold executeSubmissionPhase; rw [hacq]; dsimp only; rw [hrel], ?_, ?_, ?_, ?_⟩
  · exact hfree
  · exact List.mem_cons_self _ _
  · exact ⟨_, by unfold acquireLock; dsimp only; rw [hfree]⟩
  · intro s tid t hs ht hph
    have htid : tid < s.tasks.length := by
      by_contra hcon
      rw [List.get?_eq_none.mpr (by omega)] at ht
      exact absurd ht (by simp)
    refine ⟨{ s with
        tasks := s.tasks.set tid { t with phase := TaskPhase.submitting } },
      ?_, ?_⟩
    · unfold stepTask
      rw [ht]
      dsimp only
      rw [hph]
      dsimp only
      rw [if_pos (by rw [hs]; exact List.mem_cons_self _ _)]
    · dsimp only
      rw [List.get?_eq_getElem?, List.getElem?_set_eq_of_lt _ (by simpa using htid)]
      rfl

/-- Witness for C8: a failed submission (`initiateTransfer` threw) on a
free chain still releases the lock and wakes queued waiters. -/
theorem c8_lock_released_on_every_exit_witness :
    ∃ mr, executeSubmissionPhase emptyLockManager "8453"
        (Except.error "initiateTransfer reverted") =
        some (mr, Except.error "initiateTransfer reverted") ∧
      mr.locks.lookup (lockKey "8453") = none ∧
      emptyLockManager.nextPromiseId ∈ mr.resolvedPromises ∧
      (∃ ma, acquireLock mr "8453" = AcquireOutcome.acquired ma) ∧
      (∀ (s : BatchState) (tid : Nat) (t : BatchTask), s.mgr = mr →
        s.tasks.get? tid = some t →
        t.phase = TaskPhase.waiting emptyLockManager.nextPromiseId →
        ∃ s', stepTask s tid = some s' ∧
          (s'.tasks.get? tid).map BatchTask.phase =
            some TaskPhase.submitting) :=
  c8_lock_released_on_every_exit emptyLockManager "8453"
    (Except.error "initiateTransfer reverted") rfl

/-- C6: `approveToken` submits an approval transaction if and only if the
current allowance for (owner, spender, token) is strictly below the
required amount.  In the insufficient case the trace contains exactly one
approval submission, for exactly the required amount (never unlimited),
followed by awaiting its confirmation before returning the mined receipt;
in the sufficient case the trace is the allowance read alone and no
transaction is issued. -/
theorem c6_approve_iff_insufficient (w : EvmWorld)
    (walletAddress intentAddress tokenAddress : String) (amount : Nat)
    (spender : Option String) :
    ((∃ e ∈ (approveToken w walletAddress intentAddress tokenAddress amount
        spender).1, isApprovalSubmission e = true) ↔
      w.allowanceOf tokenAddress walletAddress (spender.getD intentAddress) <
        amount) ∧
    (amount ≤ w.allowanceOf tokenAddress walletAddress
        (spender.getD intentAddress) →
      approveToken w walletAddress intentAddress tokenAddress amount spender =
        ([EvmEvent.allowanceRead tokenAddress walletAddress
            (spender.getD intentAddress)
            (w.allowanceOf tokenAddress walletAddress
              (spender.getD intentAddress))],
         dummyReceipt)) ∧
    (w.allowanceOf tokenAddress walletAddress (spender.getD intentAddress) <
        amount →
      approveToken w walletAddress intentAddress tokenAddress amount spender =
        ([EvmEvent.allowanceRead tokenAddress walletAddress
            (spender.getD intentAddress)
            (w.allowanceOf tokenAddress walletAddress
              (spender.getD intentAddress)),
          EvmEvent.approveSubmitted tokenAddress (spender.getD intentAddress)
            amount
            (w.approveTxHash tokenAddress (spender.getD intentAddress) amount),
          EvmEvent.txWaited
            (w.approveTxHash tokenAddress (spender.getD intentAddress) amount)],
         minedReceipt w
           (w.approveTxHash tokenAddress (spender.getD intentAddress)
             amount))) := by
  by_cases h : amount ≤ w.allowanceOf tokenAddress walletAddress
      (spender.getD intentAddress)
  · refine ⟨?_, fun _ => ?_, fun hc => absurd h (by omega)⟩
    · constructor
      · rintro ⟨e, he, hap⟩
        rw [approveToken] at he
        rw [if_pos h] at he
        simp at he
        rw [he] at hap
        exact absurd hap (by simp [isApprovalSubmission])
      · intro hc
        exact absurd h (by omega)
    · rw [approveToken]
      rw [if_pos h]
  · refine ⟨?_, fun hc => absurd hc h, fun _ => ?_⟩
    · constructor
      · intro _
        omega
      · intro _
        refine ⟨EvmEvent.approveSubmitted tokenAddress
          (spender.getD intentAddress) amount
          (w.approveTxHash tokenAddress (spender.getD intentAddress) amount),
          ?_, rfl⟩
        rw [approveToken]
        rw [if_neg h]
        simp
    · rw [approveToken]
      rw [if_neg h]

/-- C10: in the short-circuit case (allowance already sufficient)
`approveToken` returns `{} as ethers.TransactionReceipt`: a value of the
declared receipt type — so the caller cannot tell it apart from a genuine
confirmation receipt through the type — whose every field (`hash`,
`blockNumber`, `logs`) is absent, so any field access yields `undefined`;
and no transaction is issued. -/
theorem c10_short_circuit_dummy_receipt (w : EvmWorld)
    (walletAddress intentAddress tokenAddress : String) (amount : Nat)
    (spender : Option String)
    (h : amount ≤ w.allowanceOf tokenAddress walletAddress
      (spender.getD intentAddress)) :
    (approveToken w walletAddress intentAddress tokenAddress amount
        spender).2 = dummyReceipt ∧
    (approveToken w walletAddress intentAddress tokenAddress amount
        spender).2.hash = none ∧
    (approveToken w walletAddress intentAddress tokenAddress amount
        spender).2.blockNumber = none ∧
    (approveToken w walletAddress intentAddress tokenAddress amount
        spender).2.logs = none ∧
    (∀ e ∈ (approveToken w walletAddress intentAddress tokenAddress amount
        spender).1, isApprovalSubmission e = false) := by
  rw [approveToken]
  rw [if_pos h]
  exact ⟨rfl, rfl, rfl, rfl, by simp [isApprovalSubmission]⟩

/-- C7: `initiateTransfer` first runs the allowance manager for exactly
`amount + tip` on the request's asset with the intent contract as spender
(the approval trace is the prefix of the whole trace, and any approval
submitted is for that token, spender and amount), reads
`getNextIntentId(salt)` strictly before submitting the state-changing
transaction, awaits that transaction's confirmation as the final chain
interaction before returning, and returns the pre-read intent id together
with the submitted transaction's hash. -/
theorem c7_initiate_transfer_protocol (w : EvmWorld)
    (walletAddress intentContractAddress : String)
    (p : InitiateTransferParams) :
    ∃ trace intentId txHash,
      initiateTransfer w walletAddress intentContractAddress p =
        (trace, intentId, txHash) ∧
      trace = (approveToken w walletAddress intentContractAddress p.asset
          (p.amount + p.tip) none).1 ++
        [EvmEvent.nextIntentIdRead p.salt intentId,
         EvmEvent.transferSubmitted p.asset p.amount p.targetChain p.receiver
           p.tip p.salt txHash,
         EvmEvent.txWaited txHash] ∧
      (∀ token spnd amt h,
        EvmEvent.approveSubmitted token spnd amt h ∈ trace →
        token = p.asset ∧ spnd = intentContractAddress ∧
          amt = p.amount + p.tip) ∧
      (∃ i j, i < j ∧
        trace.get? i = some (EvmEvent.nextIntentIdRead p.salt intentId) ∧
        trace.get? j = some (EvmEvent.transferSubmitted p.asset p.amount
          p.targetChain p.receiver p.tip p.salt txHash)) ∧
      (∃ j k, j < k ∧ k = trace.length - 1 ∧
        trace.get? j = some (EvmEvent.transferSubmitted p.asset p.amount
          p.targetChain p.receiver p.tip p.salt txHash) ∧
        trace.get? k = some (EvmEvent.txWaited txHash)) ∧
      intentId = w.nextIntentId p.salt ∧ txHash = w.transferTxHash p := by
  refine ⟨_, _, _, rfl, rfl, ?_, ?_, ?_, rfl, rfl⟩
  · intro token spnd amt h hmem
    rw [List.mem_append] at hmem
    rcases hmem with hmem | hmem
    · rw [approveToken] at hmem
      by_cases hc : p.amount + p.tip ≤
          w.allowanceOf p.asset walletAddress (Option.getD none intentContractAddress)
      · rw [if_pos hc] at hmem
        simp at hmem
      · rw [if_neg hc] at hmem
        simp at hmem
        obtain ⟨h1, h2, h3, _⟩ := hmem
        exact ⟨h1, h2, h3⟩
    · simp at hmem
  · refine ⟨(approveToken w walletAddress intentContractAddress p.asset
        (p.amount + p.tip) none).1.length,
      (approveToken w walletAddress intentContractAddress p.asset
        (p.amount + p.tip) none).1.length + 1, by omega, ?_, ?_⟩
    · rw [List.get?_append_right (le_refl _)]
      simp
    · rw [List.get?_append_right (by omega)]
      simp
  · refine ⟨(approveToken w walletAddress intentContractAddress p.asset
        (p.amount + p.tip) none).1.length + 1,
      (approveToken w walletAddress intentContractAddress p.asset
        (p.amount + p.tip) none).1.length + 2, by omega, ?_, ?_, ?_⟩
    · rw [List.length_append]
      simp
    · rw [List.get?_append_right (by omega)]
      simp
    · rw [List.get?_append_right (by omega)]
      simp

/-- Witness for C6: both branches at concrete worlds — allowance 100
against requirement 50 issues nothing, allowance 0 against requirement 50
issues exactly one approval for 50 and waits for it. -/
theorem c6_approve_iff_insufficient_witness :
    approveToken sampleRichWorld "0xme" "0xintent" "0xtoken" 50 none =
      ([EvmEvent.allowanceRead "0xtoken" "0xme" "0xintent" 100],
       dummyReceipt) ∧
    approveToken sampleBareWorld "0xme" "0xintent" "0xtoken" 50 none =
      ([EvmEvent.allowanceRead "0xtoken" "0xme" "0xintent" 0,
        EvmEvent.approveSubmitted "0xtoken" "0xintent" 50 "0xapprovetx",
        EvmEvent.txWaited "0xapprovetx"],
       minedReceipt sampleBareWorld "0xapprovetx") :=
  ⟨(c6_approve_iff_insufficient sampleRichWorld "0xme" "0xintent" "0xtoken"
      50 none).2.1 (by decide),
   (c6_approve_iff_insufficient sampleBareWorld "0xme" "0xintent" "0xtoken"
      50 none).2.2 (by decide)⟩

/-- Witness for C10: the short-circuit receipt at a concrete world has no
fields and the trace holds no approval submission. -/
theorem c10_short_circuit_dummy_receipt_witness :
    (approveToken sampleRichWorld "0xme" "0xintent" "0xtoken" 50 none).2 =
      dummyReceipt ∧
    (approveToken sampleRichWorld "0xme" "0xintent" "0xtoken" 50
        none).2.hash = none ∧
    (approveToken sampleRichWorld "0xme" "0xintent" "0xtoken" 50
        none).2.blockNumber = none ∧
    (approveToken sampleRichWorld "0xme" "0xintent" "0xtoken" 50
        none).2.logs = none ∧
    (∀ e ∈ (approveToken sampleRichWorld "0xme" "0xintent" "0xtoken" 50
        none).1, isApprovalSubmission e = false) :=
  c10_short_circuit_dummy_receipt sampleRichWorld "0xme" "0xintent"
    "0xtoken" 50 none (by decide)

/-- Witness for C7: the protocol shape at a concrete world and request. -/
theorem c7_initiate_transfer_protocol_witness :
    ∃ trace intentId txHash,
      initiateTransfer sampleBareWorld "0xme" "0xintentcontract"
          sampleTransferParams = (trace, intentId, txHash) ∧
      trace = (approveToken sampleBareWorld "0xme" "0xintentcontract"
          sampleTransferParams.asset
          (sampleTransferParams.amount + sampleTransferParams.tip) none).1 ++
        [EvmEvent.nextIntentIdRead sampleTransferParams.salt intentId,
         EvmEvent.transferSubmitted sampleTransferParams.asset
           sampleTransferParams.amount sampleTransferParams.targetChain
           sampleTransferParams.receiver sampleTransferParams.tip
           sampleTransferParams.salt txHash,
         EvmEvent.txWaited txHash] ∧
      (∀ token spnd amt h,
        EvmEvent.approveSubmitted token spnd amt h ∈ trace →
        token = sampleTransferParams.asset ∧ spnd = "0xintentcontract" ∧
          amt = sampleTransferParams.amount + sampleTransferParams.tip) ∧
      (∃ i j, i < j ∧
        trace.get? i = some (EvmEvent.nextIntentIdRead
          sampleTransferParams.salt intentId) ∧
        trace.get? j = some (EvmEvent.transferSubmitted
          sampleTransferParams.asset sampleTransferParams.amount
          sampleTransferParams.targetChain sampleTransferParams.receiver
          sampleTransferParams.tip sampleTransferParams.salt txHash)) ∧
      (∃ j k, j < k ∧ k = trace.length - 1 ∧
        trace.get? j = some (EvmEvent.transferSubmitted
          sampleTransferParams.asset sampleTransferParams.amount
          sampleTransferParams.targetChain sampleTransferParams.receiver
          sampleTransferParams.tip sampleTransferParams.salt txHash) ∧
        trace.get? k = some (EvmEvent.txWaited txHash)) ∧
      intentId = sampleBareWorld.nextIntentId sampleTransferParams.salt ∧
      txHash = sampleBareWorld.transferTxHash sampleTransferParams :=
  c7_initiate_transfer_protocol sampleBareWorld "0xme" "0xintentcontract"
    sampleTransferParams

/-- Lemma: `collectResults` yields one result per outcome. -/
theorem collectResults_length (transfers : List TransferConfig) :
    ∀ (outcomes : List SettledOutcome) (i0 : Nat),
      (collectResults transfers i0 outcomes).length = outcomes.length := by
  intro outcomes
  induction outcomes with
  | nil => intro i0; rfl
  | cons o rest ih =>
    intro i0
    unfold collectResults
    simp [ih]

/-- The `k`-th collected result is determined by the `k`-th outcome
alone. -/
theorem collectResults_get (transfers : List TransferConfig) :
    ∀ (outcomes : List SettledOutcome) (i0 k : Nat),
      (collectResults transfers i0 outcomes).get? k =
        (outcomes.get? k).map (resultAt transfers (i0 + k)) := by
  intro outcomes
  induction outcomes with
  | nil => intro i0 k; cases k <;> rfl
  | cons o rest ih =>
    intro i0 k
    cases k with
    | zero => rfl
    | succ m =>
      unfold collectResults
      rw [show (resultAt transfers i0 o :: collectResults transfers (i0 + 1)
          rest).get? (m + 1) =
        (collectResults transfers (i0 + 1) rest).get? m from rfl]
      rw [ih (i0 + 1) m]
      rw [show (o :: rest).get? (m + 1) = rest.get? m from rfl]
      rw [show i0 + 1 + m = i0 + (m + 1) by omega]

/-- A list whose `k`-th element carries index `base + k` is strictly
sorted by index. -/
theorem pairwise_lt_of_indices :
    ∀ (l : List TransferResult) (base : Nat),
      (∀ k r, l.get? k = some r → r.index = base + k) →
      List.Pairwise (fun a b => a.index < b.index) l := by
  intro l
  induction l with
  | nil => intro base _; exact List.Pairwise.nil
  | cons x xs ih =>
    intro base h
    have hx : x.index = base := by
      have := h 0 x rfl
      omega
    refine List.Pairwise.cons (fun y hy => ?_) (ih (base + 1) ?_)
    · obtain ⟨k, hk⟩ := List.get?_of_mem hy
      have := h (k + 1) y hk
      omega
    · intro k r hk
      have := h (k + 1) r hk
      omega

/-- Sorting a strictly index-sorted list leaves it unchanged. -/
theorem sortByIndex_of_pairwise :
    ∀ (l : List TransferResult),
      List.Pairwise (fun a b => a.index < b.index) l → sortByIndex l = l := by
  intro l
  induction l with
  | nil => intro _; rfl
  | cons x xs ih =>
    intro h
    rw [List.pairwise_cons] at h
    unfold sortByIndex
    rw [ih h.2]
    cases xs with
    | nil => rfl
    | cons y ys =>
      unfold insertByIndex
      rw [if_pos (h.1 y (List.mem_cons_self _ _))]

/-- C9: for a batch of `n` requests (all launched concurrently, one
`allSettled` outcome per request, index-aligned by JS semantics), the
aggregation returns exactly `n` results sorted by original request index
regardless of completion order; the `i`-th result is a function of the
`i`-th outcome alone, so one transfer's exception cannot affect its
siblings' results; and a rejected outcome yields a `failed` result at its
own index carrying the rejection reason. -/
theorem c9_batch_results (transfers : List TransferConfig)
    (outcomes : List SettledOutcome)
    (hlen : outcomes.length = transfers.length)
    (hidx : ∀ i r, outcomes.get? i = some (SettledOutcome.fulfilled r) →
      r.index = i) :
    (executeTransfersResults transfers outcomes).length = transfers.length ∧
    (∀ i, (executeTransfersResults transfers outcomes).get? i =
      (outcomes.get? i).map (resultAt transfers i)) ∧
    (∀ i r, (executeTransfersResults transfers outcomes).get? i = some r →
      r.index = i) ∧
    (∀ i reason,
      outcomes.get? i = some (SettledOutcome.rejected reason) →
      (executeTransfersResults transfers outcomes).get? i =
        some (rejectedResult transfers i reason) ∧
      (rejectedResult transfers i reason).status = TransferStatus.failed ∧
      (rejectedResult transfers i reason).index = i ∧
      (rejectedResult transfers i reason).error = some reason) ∧
    List.Pairwise (fun a b => a.index ≤ b.index)
      (executeTransfersResults transfers outcomes) := by
  have hstamp : ∀ k r, (collectResults transfers 0 outcomes).get? k = some r →
      r.index = 0 + k := by
    intro k r hk
    rw [collectResults_get transfers outcomes 0 k] at hk
    cases ho : outcomes.get? k with
    | none => rw [ho] at hk; exact absurd hk (by simp)
    | some o =>
      rw [ho] at hk
      simp at hk
      cases o with
      | fulfilled r' =>
        have : r' = r := hk
        have := hidx k r (by rw [ho, this])
        omega
      | rejected reason =>
        rw [← hk]
        unfold resultAt rejectedResult
        simp
  have hpw := pairwise_lt_of_indices (collectResults transfers 0 outcomes)
    0 hstamp
  have hsorted : executeTransfersResults transfers outcomes =
      collectResults transfers 0 outcomes := by
    unfold executeTransfersResults
    exact sortByIndex_of_pairwise _ hpw
  refine ⟨?_, ?_, ?_, ?_, ?_⟩
  · rw [hsorted, collectResults_length, hlen]
  · intro i
    rw [hsorted, collectResults_get transfers outcomes 0 i,
      show (0 : Nat) + i = i by omega]
  · intro i r h
    rw [hsorted] at h
    have := hstamp i r h
    omega
  · intro i reason h
    refine ⟨?_, rfl, rfl, rfl⟩
    rw [hsorted, collectResults_get transfers outcomes 0 i, h,
      show (0 : Nat) + i = i by omega]
    rfl
  · rw [hsorted]
    exact hpw.imp (fun h => Nat.le_of_lt h)

/-- Witness for C9: the batch of three requests in which request 1's
promise rejects still yields three index-sorted results with the failure
isolated at index 1. -/
theorem c9_batch_results_witness :
    (executeTransfersResults sampleTransfers sampleOutcomes).length =
      sampleTransfers.length ∧
    (∀ i, (executeTransfersResults sampleTransfers sampleOutcomes).get? i =
      (sampleOutcomes.get? i).map (resultAt sampleTransfers i)) ∧
    (∀ i r, (executeTransfersResults sampleTransfers sampleOutcomes).get? i =
        some r → r.index = i) ∧
    (∀ i reason,
      sampleOutcomes.get? i = some (SettledOutcome.rejected reason) →
      (executeTransfersResults sampleTransfers sampleOutcomes).get? i =
        some (rejectedResult sampleTransfers i reason) ∧
      (rejectedResult sampleTransfers i reason).status =
        TransferStatus.failed ∧
      (rejectedResult sampleTransfers i reason).index = i ∧
      (rejectedResult sampleTransfers i reason).error = some reason) ∧
    List.Pairwise (fun a b => a.index ≤ b.index)
      (executeTransfersResults sampleTransfers sampleOutcomes) :=
  c9_batch_results sampleTransfers sampleOutcomes rfl
    (by
      intro i r h
      rcases i with _ | _ | _ | n
      · rw [show sampleOutcomes.get? 0 =
            some (SettledOutcome.fulfilled (sampleSettledResult 0)) from rfl]
          at h
        cases h
        rfl
      · rw [show sampleOutcomes.get? 1 =
            some (SettledOutcome.rejected "initiateTransfer reverted")
            from rfl] at h
        cases h
      · rw [show sampleOutcomes.get? 2 =
            some (SettledOutcome.fulfilled (sampleSettledResult 2)) from rfl]
          at h
        cases h
        rfl
      · rw [show sampleOutcomes.get? (n + 3) = none from rfl] at h
        cases h)

end Speedtest
